import Mathlib

/-!
# DeckOracle Import/Export Engine — verification of the specification

A shallow embedding of `src/backend/src/services/import_export.rs` (together
with the data model of `src/backend/src/models/import_export.rs` and the error
type of `src/backend/src/utils/error.rs`), and proofs of the spec's claims
about it.

Modelling conventions:
* Rust `String`/`&str` values are modelled as `List Char` (`Str`); the string
  operations used by the code (`starts_with`, slicing at an ASCII prefix,
  `trim`, `lines`, `matches(..).count()`) are defined below on `Str`,
  following Rust semantics.
* `Uuid::new_v4()` is modelled as a fresh-identifier supply carried by the
  store (`Store.nextId`); freshness of v4 UUIDs corresponds to the
  well-formedness predicate `Store.WF`.
* `chrono::Utc::now()` is modelled as an abstract instant `now : Nat` fixed
  for the duration of one call; `DateTime<Utc>` fields are `Nat`.
* The relational store is modelled as lists of rows; a sqlx transaction is
  modelled by threading the store through the call and committing the final
  store only when the Rust code reaches `tx.commit()` — an `Except.error`
  result drops the transaction, so the caller keeps the original store
  (`runImportDecks` below).
* Storage write errors are injected through a schedule `List Bool` consumed
  one entry per SQL write (`INSERT`); `true` makes that write fail, the empty
  schedule never fails.  Reads are not failure-injected.
* `serde_json` is an external collaborator: its byte-level (de)serialization
  of the two JSON shapes is a parameter (`Serde`), and every theorem holds
  for all implementations of it.
-/

namespace DeckOracle

/-- Rust strings, modelled as lists of characters. -/
abbrev Str := List Char

/-- Coerce a Lean string literal to the `Str` model. -/
def str (s : String) : Str := s.data

/-- Model of Rust `char::is_whitespace`: the Unicode `White_Space` property,
which covers U+0009..U+000D, U+0020, U+0085, U+00A0, U+1680, U+2000..U+200A,
U+2028, U+2029, U+202F, U+205F and U+3000 (note this is wider than the ASCII
whitespace of Lean's `Char.isWhitespace`: it includes e.g. the no-break
space U+00A0). -/
def isWhiteSpace (c : Char) : Bool :=
  decide ((0x9 ≤ c.toNat ∧ c.toNat ≤ 0xD) ∨ c.toNat = 0x20 ∨
    c.toNat = 0x85 ∨ c.toNat = 0xA0 ∨ c.toNat = 0x1680 ∨
    (0x2000 ≤ c.toNat ∧ c.toNat ≤ 0x200A) ∨ c.toNat = 0x2028 ∨
    c.toNat = 0x2029 ∨ c.toNat = 0x202F ∨ c.toNat = 0x205F ∨
    c.toNat = 0x3000)

/-- Model of Rust `str::trim` (drop Unicode `White_Space` characters from
both ends). -/
def trimStr (s : Str) : Str :=
  ((s.dropWhile isWhiteSpace).reverse.dropWhile isWhiteSpace).reverse

/-- Strip one trailing carriage return from a line accumulated in reverse,
then restore its order; models Rust `lines()` treating `\r\n` as a line
terminator. -/
def stripCRrev (acc : Str) : Str :=
  (if acc.head? = some '\r' then acc.tail else acc).reverse

/-- Worker for `splitLines`: `acc` holds the current line in reverse. -/
def splitLinesAux : Str → Str → List Str
  | [], acc => if acc.isEmpty then [] else [acc.reverse]
  | c :: rest, acc =>
    if c = '\n' then stripCRrev acc :: splitLinesAux rest []
    else splitLinesAux rest (c :: acc)

/-- Model of Rust `str::lines()`: split at `\n` (also consuming a preceding
`\r`), with the final terminator optional and no trailing empty line. -/
def splitLines (s : Str) : List Str := splitLinesAux s []

/-- Worker for `countMatches`: the counter holds how many characters of a
just-matched occurrence remain to be skipped. -/
def countMatchesAux (p : Char) (ps : Str) : Str → Nat → Nat
  | [], _ => 0
  | c :: rest, 0 =>
    if (p :: ps).isPrefixOf (c :: rest) then
      1 + countMatchesAux p ps rest ps.length
    else
      countMatchesAux p ps rest 0
  | _ :: rest, k + 1 => countMatchesAux p ps rest k

/-- Non-overlapping occurrence count; models Rust
`content.matches(pat).count()` for a non-empty pattern `p :: ps`. -/
def countMatches (p : Char) (ps : Str) (s : Str) : Nat :=
  countMatchesAux p ps s 0

/-- Model of Rust `str::parse::<i32>().ok()`: an optional sign followed by at
least one digit (integer overflow is not modelled; the parsed value is never
used by the engine). -/
def parseIntOpt (s : Str) : Option Int :=
  let digits (ds : Str) : Option Nat :=
    if ds.isEmpty ∨ ¬ ds.all Char.isDigit then none
    else some (ds.foldl (fun n c => n * 10 + (c.toNat - '0'.toNat)) 0)
  match s with
  | '-' :: rest => (digits rest).map (fun n => -(n : Int))
  | '+' :: rest => (digits rest).map (fun n => (n : Int))
  | _ => (digits s).map (fun n => (n : Int))

/-- UTF-8 encoding of one scalar value (the standard 1–4 byte scheme). -/
def utf8EncodeChar (c : Char) : List Nat :=
  let n := c.toNat
  if n < 0x80 then [n]
  else if n < 0x800 then [0xC0 + n / 64, 0x80 + n % 64]
  else if n < 0x10000 then [0xE0 + n / 4096, 0x80 + n / 64 % 64, 0x80 + n % 64]
  else [0xF0 + n / 262144, 0x80 + n / 4096 % 64, 0x80 + n / 64 % 64, 0x80 + n % 64]

/-- UTF-8 encoding of a string. -/
def utf8Encode (s : Str) : List Nat := s.flatMap utf8EncodeChar

instance {ε α : Type} [DecidableEq ε] [DecidableEq α] :
    DecidableEq (Except ε α) := fun a b =>
  match a, b with
  | .ok x, .ok y =>
    if h : x = y then .isTrue (by rw [h]) else .isFalse (by simp [h])
  | .error x, .error y =>
    if h : x = y then .isTrue (by rw [h]) else .isFalse (by simp [h])
  | .ok _, .error _ => .isFalse (by simp)
  | .error _, .ok _ => .isFalse (by simp)

/-- A byte payload (`Vec<u8>` / `&[u8]`): either a valid UTF-8 sequence,
given by its decoded text, or a byte sequence that is not valid UTF-8. -/
inductive ByteData where
  | utf8 (s : Str)
  | binary (bs : List Nat)
deriving Repr, DecidableEq

/-- The raw bytes of a payload. -/
def ByteData.toBytes : ByteData → List Nat
  | .utf8 s => utf8Encode s
  | .binary bs => bs

/-- Byte-wise concatenation (`Vec::extend_from_slice`); concatenating two
valid UTF-8 sequences yields a valid UTF-8 sequence. -/
def ByteData.app : ByteData → ByteData → ByteData
  | .utf8 s, .utf8 t => .utf8 (s ++ t)
  | a, b => .binary (a.toBytes ++ b.toBytes)

/-- `AppError` from `src/backend/src/utils/error.rs` (the variants reachable
from the import/export service). -/
inductive AppError where
  | Database
  | NotFound (msg : Str)
  | BadRequest (msg : Str)
  | InternalServerError
  | CsvError (msg : Str)
deriving Repr, DecidableEq

/-! ## Data model (`src/backend/src/models/import_export.rs`) -/

/-- `ExportFormat`. -/
inductive ExportFormat where
  | json | csv | anki | markdown
deriving Repr, DecidableEq

/-- `ImportFormat`. -/
inductive ImportFormat where
  | json | csv | anki | markdown
deriving Repr, DecidableEq

/-- `CardProgressData`.  The `f32` field `ease_factor` is modelled at the
fixed ×1000 precision in which the engine consumes it
(`(p.ease_factor * 1000.0) as i32` in `export_as_anki`). -/
structure CardProgressData where
  review_count : Int
  correct_count : Int
  last_reviewed : Option Nat
  next_review : Option Nat
  ease_factor_x1000 : Int
  interval_days : Int
deriving Repr, DecidableEq

/-- `MediaAttachment`. -/
structure MediaAttachment where
  id : Nat
  filename : Str
  content_type : Str
  data : Option Str
  url : Option Str
deriving Repr, DecidableEq

/-- `ExportMetadata`. -/
structure ExportMetadata where
  version : Str
  exported_at : Nat
  platform : Str
  format : Str
  total_cards : Nat
  includes_progress : Bool
  includes_media : Bool
deriving Repr, DecidableEq

/-- `ExportedCard`. -/
structure ExportedCard where
  id : Nat
  front : Str
  back : Str
  explanation : Option Str
  tags : List Str
  difficulty : Option Int
  media : List MediaAttachment
  created_at : Nat
  updated_at : Nat
  progress : Option CardProgressData
deriving Repr, DecidableEq

/-- `ExportedDeck`. -/
structure ExportedDeck where
  id : Nat
  title : Str
  description : Option Str
  tags : List Str
  created_at : Nat
  updated_at : Nat
  cards : List ExportedCard
  metadata : ExportMetadata
deriving Repr, DecidableEq

/-- `CsvCard`. -/
structure CsvCard where
  front : Str
  back : Str
  tags : Str
  explanation : Str
  difficulty : Option Int
deriving Repr, DecidableEq

/-- `AnkiField`. -/
structure AnkiField where
  name : Str
  ord : Int
deriving Repr, DecidableEq

/-- `AnkiTemplate`. -/
structure AnkiTemplate where
  name : Str
  qfmt : Str
  afmt : Str
deriving Repr, DecidableEq

/-- `AnkiModel`. -/
structure AnkiModel where
  id : Int
  name : Str
  flds : List AnkiField
  tmpls : List AnkiTemplate
deriving Repr, DecidableEq

/-- `AnkiNote`. -/
structure AnkiNote where
  id : Int
  guid : Str
  mid : Int
  fields : List Str
  tags : List Str
deriving Repr, DecidableEq

/-- `AnkiCard`. -/
structure AnkiCard where
  nid : Int
  ord : Int
  did : Int
  due : Int
  ivl : Int
  factor : Int
  reps : Int
  lapses : Int
deriving Repr, DecidableEq

/-- `AnkiDeck`. -/
structure AnkiDeck where
  name : Str
  desc : Str
  cards : List AnkiCard
  notes : List AnkiNote
  models : List AnkiModel
deriving Repr, DecidableEq

/-- `ImportValidationResult`. -/
structure ImportValidationResult where
  is_valid : Bool
  errors : List Str
  warnings : List Str
  deck_count : Nat
  card_count : Nat
deriving Repr, DecidableEq

/-- `ImportedDeck`. -/
structure ImportedDeck where
  id : Nat
  title : Str
  card_count : Nat
  was_merged : Bool
deriving Repr, DecidableEq

/-- `ImportResult`. -/
structure ImportResult where
  success : Bool
  imported_decks : List ImportedDeck
  errors : List Str
  warnings : List Str
  total_cards_imported : Nat
  total_decks_imported : Nat
deriving Repr, DecidableEq

/-! ## Relational store

Rows of the `decks` and `cards` tables (columns as selected by the service:
`Deck` and `Card` from `src/backend/src/models/mod.rs`), a list-of-rows store,
and the SQL operations the service issues against it. -/

/-- One row of the `decks` table. -/
structure DeckRow where
  id : Nat
  owner_id : Nat
  folder_id : Option Nat
  title : Str
  description : Option Str
  is_public : Bool
  created_at : Nat
  updated_at : Nat
deriving Repr, DecidableEq

/-- One row of the `cards` table. -/
structure CardRow where
  id : Nat
  deck_id : Nat
  front : Str
  back : Str
  position : Int
  created_at : Nat
  updated_at : Nat
deriving Repr, DecidableEq

/-- The relational store: the two tables plus the fresh-identifier supply
that models `Uuid::new_v4()`. -/
structure Store where
  decks : List DeckRow
  cards : List CardRow
  nextId : Nat
deriving Repr, DecidableEq

/-- `Uuid::new_v4()`: draw a fresh identifier from the supply. -/
def Store.freshUuid (s : Store) : Nat × Store :=
  (s.nextId, { s with nextId := s.nextId + 1 })

/-- `SELECT id FROM decks WHERE owner_id = $1 AND title = $2`
(`fetch_optional`). -/
def Store.findDeckByOwnerTitle (s : Store) (uid : Nat) (t : Str) : Option DeckRow :=
  s.decks.find? (fun d => d.owner_id = uid && d.title = t)

/-- `SELECT ... FROM decks WHERE id = $1 AND owner_id = $2` (`fetch_one`). -/
def Store.findDeckByIdOwner (s : Store) (did uid : Nat) : Option DeckRow :=
  s.decks.find? (fun d => d.id = did && d.owner_id = uid)

/-- `INSERT INTO decks ...`. -/
def Store.insertDeck (s : Store) (d : DeckRow) : Store :=
  { s with decks := s.decks ++ [d] }

/-- `INSERT INTO cards ...`. -/
def Store.insertCard (s : Store) (c : CardRow) : Store :=
  { s with cards := s.cards ++ [c] }

/-- `INSERT INTO cards ... ON CONFLICT (id) DO NOTHING`. -/
def Store.insertCardOnConflict (s : Store) (c : CardRow) : Store :=
  if s.cards.any (fun c2 => c2.id = c.id) then s else s.insertCard c

/-- Stable insertion into a position-sorted list (insert after equal keys,
preserving insertion order among ties). -/
def insertByPos (c : CardRow) : List CardRow → List CardRow
  | [] => [c]
  | c2 :: rest => if c.position < c2.position then c :: c2 :: rest
                  else c2 :: insertByPos c rest

/-- Stable sort by `position`. -/
def sortByPos : List CardRow → List CardRow
  | [] => []
  | c :: rest => insertByPos c (sortByPos rest)

/-- `SELECT ... FROM cards WHERE deck_id = $1 ORDER BY position`
(`fetch_all`; ties resolved by insertion order). -/
def Store.cardsOfDeckByPos (s : Store) (did : Nat) : List CardRow :=
  sortByPos (s.cards.filter (fun c => c.deck_id = did))

/-- Well-formed store: every stored row's identifier is below the supply (so
a freshly drawn v4 UUID never collides with a stored row), and every card
references an existing deck (the data-model invariant of the spec). -/
def Store.WF (s : Store) : Prop :=
  (∀ c ∈ s.cards, c.id < s.nextId) ∧ (∀ d ∈ s.decks, d.id < s.nextId) ∧
  (∀ c ∈ s.cards, ∃ d ∈ s.decks, c.deck_id = d.id)

/-- One storage-write step: pop the failure schedule (`true` = this `INSERT`
fails with a database error; an empty schedule never fails). -/
def popFail : List Bool → Bool × List Bool
  | [] => (false, [])
  | b :: r => (b, r)

/-- External `serde_json` collaborator: byte-level (de)serialization of the
`ExportedDeck` shape (`serde_json::to_vec_pretty` / `from_slice`) and the
`AnkiDeck` shape (`serde_json::to_vec` / `from_slice`).  All theorems about
the engine hold for every implementation. -/
structure Serde where
  jsonEncode : ExportedDeck → ByteData
  jsonDecode : ByteData → Except Str ExportedDeck
  ankiEncode : AnkiDeck → ByteData
  ankiDecode : ByteData → Except Str AnkiDeck

/-! ## Markdown codec
(`export_as_markdown`, lines 266–285, and the parsing phase of
`import_from_markdown`, lines 531–567.) -/

/-- The markdown text written for one card by `export_as_markdown` (three
`writeln!` calls for card index `i`, 0-based). -/
def mdCardText (i : Nat) (front back : Str) : Str :=
  str "## Card " ++ (Nat.repr (i + 1)).data ++ str "\n" ++
  str "\n**Front:** " ++ front ++ str "\n" ++
  str "\n**Back:** " ++ back ++ str "\n" ++
  str "\n---\n\n"

/-- The card loop of `export_as_markdown` (`for (i, card) in
cards.iter().enumerate()`), as index recursion. -/
def mdCardsText : Nat → List (Str × Str) → Str
  | _, [] => []
  | i, c :: rest => mdCardText i c.1 c.2 ++ mdCardsText (i + 1) rest

/-- `export_as_markdown`: deck header, optional description block, rule, then
one block per card. -/
def mdEncode (name : Str) (description : Option Str) (cards : List (Str × Str)) : Str :=
  str "# " ++ name ++ str "\n" ++
  (match description with
   | some d => str "\n" ++ d ++ str "\n\n"
   | none => []) ++
  str "---\n\n" ++
  mdCardsText 0 cards

/-- Parser state of `import_from_markdown`: deck title, the card currently
being accumulated, and the finished cards (the `in_front`/`in_back` flags of
the source are set but never read, and are omitted). -/
structure MdState where
  title : Str
  cur : Option (Str × Str)
  cards : List (Str × Str)
deriving Repr, DecidableEq

/-- One iteration of the line loop of `import_from_markdown`. -/
def mdStep (st : MdState) (line : Str) : MdState :=
  if (str "# ").isPrefixOf line then
    { st with title := trimStr (line.drop 2) }
  else if (str "## Card").isPrefixOf line then
    { st with cur := some ([], []),
              cards := st.cards ++ (match st.cur with
                                    | some c => [c]
                                    | none => []) }
  else if (str "**Front:**").isPrefixOf line then
    { st with cur := st.cur.map (fun c => (trimStr (line.drop 10), c.2)) }
  else if (str "**Back:**").isPrefixOf line then
    { st with cur := st.cur.map (fun c => (c.1, trimStr (line.drop 9))) }
  else st

/-- The parsing phase of `import_from_markdown` on a line list: fold the line
loop from the initial state, then append the last open card if any. -/
def mdParseLines (lines : List Str) : Str × List (Str × Str) :=
  let st := lines.foldl mdStep ⟨str "Imported from Markdown", none, []⟩
  (st.title, st.cards ++ (match st.cur with
                          | some c => [c]
                          | none => []))

/-- The parsing phase of `import_from_markdown` on the decoded text. -/
def mdParse (content : Str) : Str × List (Str × Str) :=
  mdParseLines (splitLines content)

/-! ## CSV codec

The `csv` crate is an external collaborator; `csvRecordResults` models its
default `Reader` (`has_headers = true`, `flexible = false`, no comments,
empty lines skipped) on UTF-8 input that uses no quoting: the first
non-empty line is the header, every later non-empty line is one record whose
fields are the comma-separated pieces, and a record whose field count
differs from the header's is an `UnequalLengths` error.  Non-UTF-8 input is
approximated as a single malformed record. -/

/-- Split a line into comma-separated fields. -/
def csvFields (line : Str) : List Str := line.splitOn ','

/-- The sequence of per-record results produced by iterating the reader
(`rdr.records()` / `rdr.into_records()`). -/
def csvRecordResults (data : ByteData) : List (Except Str (List Str)) :=
  match data with
  | .utf8 s =>
    match (splitLines s).filter (fun l => ¬ l.isEmpty) with
    | [] => []
    | header :: rest =>
      let n := (csvFields header).length
      rest.map (fun r =>
        let fs := csvFields r
        if fs.length = n then .ok fs else .error (str "unequal lengths"))
  | .binary _ => [.error (str "invalid utf8")]

/-- Quote a CSV field when it contains a comma, quote, CR or LF (the crate's
`QuoteStyle::Necessary`). -/
def csvQuoteField (f : Str) : Str :=
  if f.any (fun c => c = ',' ∨ c = '"' ∨ c = '\n' ∨ c = '\r') then
    '"' :: f.flatMap (fun c => if c = '"' then ['"', '"'] else [c]) ++ ['"']
  else f

/-- One CSV line written by `wtr.write_record` (comma-joined quoted fields,
`\n` terminator). -/
def csvWriteRecord (fields : List Str) : Str :=
  (List.intersperse [','] (fields.map csvQuoteField)).flatten ++ ['\n']

/-! ## Validator (`validate_import`, lines 636–699)

The source returns `Result<ImportValidationResult>` but every path is `Ok`,
so the model returns the result directly. -/

/-- `validate_import`: decode defensively for the given format, classify the
outcome, and never touch the store (the Rust function has no database
handle). -/
def validate_import (sd : Serde) (data : ByteData) (format : ImportFormat) :
    ImportValidationResult :=
  match format with
  | .json =>
    match sd.jsonDecode data with
    | .ok deck =>
      { is_valid := true
        errors := []
        warnings := if deck.cards.isEmpty then [str "Deck contains no cards"] else []
        deck_count := 1
        card_count := deck.cards.length }
    | .error e =>
      { is_valid := false
        errors := [str "Invalid JSON format: " ++ e]
        warnings := []
        deck_count := 0
        card_count := 0 }
  | .csv =>
    let card_count := (csvRecordResults data).length
    { is_valid := card_count ≠ 0
      errors := if card_count = 0 then [str "CSV file contains no valid records"] else []
      warnings := []
      deck_count := 1
      card_count := card_count }
  | .anki =>
    match sd.ankiDecode data with
    | .ok deck =>
      { is_valid := true
        errors := []
        warnings := if deck.notes.isEmpty then [str "Anki deck contains no notes"] else []
        deck_count := 1
        card_count := deck.notes.length }
    | .error e =>
      { is_valid := false
        errors := [str "Invalid Anki format: " ++ e]
        warnings := []
        deck_count := 0
        card_count := 0 }
  | .markdown =>
    match data with
    | .utf8 content =>
      let card_count := countMatches '#' (str "# Card") content
      { is_valid := true
        errors := []
        warnings := if card_count = 0 then [str "Markdown file contains no cards"] else []
        deck_count := 1
        card_count := card_count }
    | .binary _ =>
      { is_valid := false
        errors := [str "Invalid UTF-8 encoding in Markdown file"]
        warnings := []
        deck_count := 0
        card_count := 0 }

/-! ## Importer (`import_decks` and the four format importers) -/

/-- Card-insert loop of `import_from_json` (lines 337–355): for each decoded
card in order, `INSERT` with a fresh v4 UUID and `ON CONFLICT (id) DO
NOTHING`, position = loop index; `imported_cards` increments on every
iteration.  Returns the store, the remaining failure schedule and the
`imported_cards` count. -/
def insertJsonCards (now deckId : Nat) :
    List ExportedCard → Nat → Store → List Bool →
    Except AppError (Store × List Bool × Nat)
  | [], _, s, fs => .ok (s, fs, 0)
  | c :: rest, pos, s, fs =>
    let p := popFail fs
    if p.1 then .error .Database
    else
      let u := s.freshUuid
      let s2 := u.2.insertCardOnConflict
        ⟨u.1, deckId, c.front, c.back, (pos : Int), now, now⟩
      match insertJsonCards now deckId rest (pos + 1) s2 p.2 with
      | .ok (sf, fsf, n) => .ok (sf, fsf, n + 1)
      | .error e => .error e

/-- Tail of `import_from_json` after the target deck is determined: run the
card loop, commit, and build the `ImportResult`. -/
def importJsonFinish (now : Nat) (title : Str) (cards : List ExportedCard)
    (deckId : Nat) (s : Store) (fs : List Bool) (wasMerged : Bool) :
    Except AppError (Store × ImportResult) :=
  match insertJsonCards now deckId cards 0 s fs with
  | .error e => .error e
  | .ok (s2, _, n) =>
    .ok (s2,
      { success := true
        imported_decks := [⟨deckId, title, n, wasMerged⟩]
        errors := []
        warnings := []
        total_cards_imported := n
        total_decks_imported := 1 })

/-- `import_from_json` (lines 288–372): decode, begin a transaction, check
for an existing deck of the same owner and title, create the deck when
absent (failing with `BadRequest` when present and merging is off), insert
the cards, commit. -/
def import_from_json (sd : Serde) (now : Nat) (fs : List Bool) (s : Store)
    (user_id : Nat) (data : ByteData) (folder_id : Option Nat)
    (merge_duplicates : Bool) : Except AppError (Store × ImportResult) :=
  match sd.jsonDecode data with
  | .error e => .error (.BadRequest (str "JSON error: " ++ e))
  | .ok exported_deck =>
    match s.findDeckByOwnerTitle user_id exported_deck.title with
    | some existing =>
      if ¬ merge_duplicates then
        .error (.BadRequest (str "Deck with same name already exists"))
      else
        importJsonFinish now exported_deck.title exported_deck.cards
          existing.id s fs true
    | none =>
      let u := s.freshUuid
      let p := popFail fs
      if p.1 then .error .Database
      else
        importJsonFinish now exported_deck.title exported_deck.cards u.1
          (u.2.insertDeck ⟨u.1, user_id, folder_id, exported_deck.title,
            exported_deck.description, false, now, now⟩)
          p.2 false

/-- Record-collection loop of `import_from_csv` (lines 384–395): fail fast on
the first record error (`result?`), keep records with at least two fields. -/
def csvCollectCards : List (Except Str (List Str)) → Except AppError (List CsvCard)
  | [] => .ok []
  | .error e :: _ => .error (.CsvError (str "CSV parsing error: " ++ e))
  | .ok r :: rest =>
    if r.length ≥ 2 then
      (csvCollectCards rest).map (fun cs =>
        { front := r.getD 0 []
          back := r.getD 1 []
          tags := r.getD 2 []
          explanation := r.getD 3 []
          difficulty := (r.get? 4).bind parseIntOpt } :: cs)
    else csvCollectCards rest

/-- Models `Utc::now().format("%Y-%m-%d")`: a deterministic rendering of the
abstract instant (the engine only ever compares such strings for equality). -/
def formatYmd (now : Nat) : Str := (Nat.repr now).data

/-- The generated title of a CSV-imported deck:
`format!("Imported Deck {}", Utc::now().format("%Y-%m-%d"))`. -/
def csvDeckTitle (now : Nat) : Str := str "Imported Deck " ++ formatYmd now

/-- Plain card-insert loop shared by the CSV and Markdown importers: for each
`(front, back)` pair in order, `INSERT` with a fresh v4 UUID, position =
loop index. -/
def insertPlainCards (now deckId : Nat) :
    List (Str × Str) → Nat → Store → List Bool →
    Except AppError (Store × List Bool)
  | [], _, s, fs => .ok (s, fs)
  | c :: rest, pos, s, fs =>
    let p := popFail fs
    if p.1 then .error .Database
    else
      let u := s.freshUuid
      insertPlainCards now deckId rest (pos + 1)
        (u.2.insertCard ⟨u.1, deckId, c.1, c.2, (pos : Int), now, now⟩) p.2

/-- `import_from_csv` (lines 374–454): parse the records, always create a
fresh deck titled from today's date (`merge_duplicates` is ignored and no
duplicate check is made), insert the kept cards, commit. -/
def import_from_csv (now : Nat) (fs : List Bool) (s : Store)
    (user_id : Nat) (data : ByteData) (folder_id : Option Nat)
    (_merge_duplicates : Bool) : Except AppError (Store × ImportResult) :=
  match csvCollectCards (csvRecordResults data) with
  | .error e => .error e
  | .ok cards =>
    let deck_title := csvDeckTitle now
    let u := s.freshUuid
    let p := popFail fs
    if p.1 then .error .Database
    else
      match insertPlainCards now u.1 (cards.map (fun c => (c.front, c.back))) 0
          (u.2.insertDeck ⟨u.1, user_id, folder_id, deck_title,
            some (str "Imported from CSV"), false, now, now⟩) p.2 with
      | .error e => .error e
      | .ok (s2, _) =>
        .ok (s2,
          { success := true
            imported_decks := [⟨u.1, deck_title, cards.length, false⟩]
            errors := []
            warnings := []
            total_cards_imported := cards.length
            total_decks_imported := 1 })

/-- Note-insert loop of `import_from_anki` (lines 487–505): the position
index enumerates every note, but only notes with at least two fields are
inserted (front and back are the first two fields). -/
def insertAnkiNotes (now deckId : Nat) :
    List AnkiNote → Nat → Store → List Bool →
    Except AppError (Store × List Bool)
  | [], _, s, fs => .ok (s, fs)
  | note :: rest, pos, s, fs =>
    if note.fields.length ≥ 2 then
      let p := popFail fs
      if p.1 then .error .Database
      else
        let u := s.freshUuid
        insertAnkiNotes now deckId rest (pos + 1)
          (u.2.insertCard ⟨u.1, deckId, note.fields.getD 0 [],
            note.fields.getD 1 [], (pos : Int), now, now⟩) p.2
    else insertAnkiNotes now deckId rest (pos + 1) s fs

/-- `import_from_anki` (lines 456–522): decode the Anki JSON shape, always
create a fresh deck (no duplicate check), insert the notes with ≥ 2 fields,
commit; the reported counts use the full note count. -/
def import_from_anki (sd : Serde) (now : Nat) (fs : List Bool) (s : Store)
    (user_id : Nat) (data : ByteData) (folder_id : Option Nat)
    (_merge_duplicates : Bool) : Except AppError (Store × ImportResult) :=
  match sd.ankiDecode data with
  | .error e => .error (.BadRequest (str "JSON error: " ++ e))
  | .ok anki_deck =>
    let u := s.freshUuid
    let p := popFail fs
    if p.1 then .error .Database
    else
      match insertAnkiNotes now u.1 anki_deck.notes 0
          (u.2.insertDeck ⟨u.1, user_id, folder_id, anki_deck.name,
            some anki_deck.desc, false, now, now⟩) p.2 with
      | .error e => .error e
      | .ok (s2, _) =>
        .ok (s2,
          { success := true
            imported_decks :=
              [⟨u.1, anki_deck.name, anki_deck.notes.length, false⟩]
            errors := []
            warnings := []
            total_cards_imported := anki_deck.notes.length
            total_decks_imported := 1 })

/-- `import_from_markdown` (lines 524–623): decode UTF-8, parse the line
grammar, always create a fresh deck with the parsed title and no description
(no duplicate check), insert the parsed cards, commit. -/
def import_from_markdown (now : Nat) (fs : List Bool) (s : Store)
    (user_id : Nat) (data : ByteData) (folder_id : Option Nat)
    (_merge_duplicates : Bool) : Except AppError (Store × ImportResult) :=
  match data with
  | .binary _ => .error (.BadRequest (str "Invalid UTF-8: invalid utf-8 sequence"))
  | .utf8 content =>
    let parsed := mdParse content
    let deck_description : Option Str := none
    let u := s.freshUuid
    let p := popFail fs
    if p.1 then .error .Database
    else
      match insertPlainCards now u.1 parsed.2 0
          (u.2.insertDeck ⟨u.1, user_id, folder_id, parsed.1,
            deck_description, false, now, now⟩) p.2 with
      | .error e => .error e
      | .ok (s2, _) =>
        .ok (s2,
          { success := true
            imported_decks := [⟨u.1, parsed.1, parsed.2.length, false⟩]
            errors := []
            warnings := []
            total_cards_imported := parsed.2.length
            total_decks_imported := 1 })

/-- `import_decks` (lines 101–129): run the validator first and return a
non-success result with its errors and warnings when invalid (no storage
access); otherwise dispatch on the format. -/
def import_decks (sd : Serde) (now : Nat) (fs : List Bool) (s : Store)
    (user_id : Nat) (data : ByteData) (format : ImportFormat)
    (folder_id : Option Nat) (merge_duplicates : Bool) :
    Except AppError (Store × ImportResult) :=
  let validation := validate_import sd data format
  if ¬ validation.is_valid then
    .ok (s,
      { success := false
        imported_decks := []
        errors := validation.errors
        warnings := validation.warnings
        total_cards_imported := 0
        total_decks_imported := 0 })
  else
    match format with
    | .json => import_from_json sd now fs s user_id data folder_id merge_duplicates
    | .csv => import_from_csv now fs s user_id data folder_id merge_duplicates
    | .anki => import_from_anki sd now fs s user_id data folder_id merge_duplicates
    | .markdown => import_from_markdown now fs s user_id data folder_id merge_duplicates

/-- One import call against the store: the sqlx transaction makes the writes
visible only at `tx.commit()`, and an error drops the transaction, so the
caller's store is unchanged on every error path. -/
def runImportDecks (sd : Serde) (now : Nat) (fs : List Bool) (s : Store)
    (user_id : Nat) (data : ByteData) (format : ImportFormat)
    (folder_id : Option Nat) (merge_duplicates : Bool) :
    Store × Except AppError ImportResult :=
  match import_decks sd now fs s user_id data format folder_id merge_duplicates with
  | .ok (s2, r) => (s2, .ok r)
  | .error e => (s, .error e)

/-! ## Exporter (`export_deck`, `export_decks` and the four format encoders) -/

/-- `get_card_progress` (lines 626–634): the simplified implementation always
returns the empty list. -/
def get_card_progress (_user_id _deck_id : Nat) : List CardProgressData := []

/-- `export_as_json` (lines 132–172): build the `ExportedDeck` intermediate
representation handed to `serde_json::to_vec_pretty`. -/
def export_as_json (now : Nat) (deck : DeckRow) (cards : List CardRow)
    (progress : List CardProgressData) : ExportedDeck :=
  let exported_cards : List ExportedCard := cards.enum.map (fun ic =>
    { id := ic.2.id
      front := ic.2.front
      back := ic.2.back
      explanation := none
      tags := []
      difficulty := none
      media := []
      created_at := ic.2.created_at
      updated_at := ic.2.updated_at
      progress := progress.get? ic.1 })
  { id := deck.id
    title := deck.title
    description := deck.description
    tags := []
    created_at := deck.created_at
    updated_at := deck.updated_at
    cards := exported_cards
    metadata :=
      { version := str "1.0"
        exported_at := now
        platform := str "DeckOracle"
        format := str "json"
        total_cards := exported_cards.length
        includes_progress := ¬ progress.isEmpty
        includes_media := false } }

/-- `export_as_csv` (lines 174–201): header record then one record per card
(tags and explanation empty, difficulty rendered as the empty string). -/
def export_as_csv (_deck : DeckRow) (cards : List CardRow) : Str :=
  csvWriteRecord [str "Front", str "Back", str "Tags", str "Explanation",
    str "Difficulty"] ++
  (cards.map (fun c => csvWriteRecord [c.front, c.back, [], [], []])).flatten

/-- `export_as_anki` (lines 203–264): build the `AnkiDeck` representation
handed to `serde_json::to_vec` (fixed "Basic" model; scheduling fields from
progress when present, defaulted otherwise). -/
def export_as_anki (deck : DeckRow) (cards : List CardRow)
    (progress : List CardProgressData) : AnkiDeck :=
  let model : AnkiModel :=
    { id := 1
      name := str "Basic"
      flds := [⟨str "Front", 0⟩, ⟨str "Back", 1⟩]
      tmpls := [⟨str "Card 1", str "\x7b\x7bFront\x7d\x7d",
        str "\x7b\x7bFrontSide\x7d\x7d<hr id=\"answer\">\x7b\x7bBack\x7d\x7d"⟩] }
  let anki_notes : List AnkiNote := cards.enum.map (fun ic =>
    { id := (ic.1 : Int) + 1
      guid := (Nat.repr ic.2.id).data
      mid := 1
      fields := [ic.2.front, ic.2.back]
      tags := [] })
  let anki_cards : List AnkiCard := cards.enum.map (fun ic =>
    { nid := (ic.1 : Int) + 1
      ord := 0
      did := 1
      due := 0
      ivl := ((progress.get? ic.1).map (fun p => p.interval_days)).getD 0
      factor := ((progress.get? ic.1).map (fun p => p.ease_factor_x1000)).getD 2500
      reps := ((progress.get? ic.1).map (fun p => p.review_count)).getD 0
      lapses := 0 })
  { name := deck.title
    desc := deck.description.getD []
    cards := anki_cards
    notes := anki_notes
    models := [model] }

/-- `export_deck` (lines 19–71): load the deck by id and owner (`NotFound`
otherwise), load its cards ordered by position, join progress when
requested, and encode with the chosen codec. -/
def export_deck (sd : Serde) (now : Nat) (s : Store) (user_id deck_id : Nat)
    (format : ExportFormat) (include_progress _include_media : Bool) :
    Except AppError ByteData :=
  match s.findDeckByIdOwner deck_id user_id with
  | none => .error (.NotFound (str "Deck not found"))
  | some deck =>
    let cards := s.cardsOfDeckByPos deck_id
    let card_progress :=
      if include_progress then get_card_progress user_id deck_id else []
    match format with
    | .json => .ok (sd.jsonEncode (export_as_json now deck cards card_progress))
    | .csv => .ok (.utf8 (export_as_csv deck cards))
    | .anki => .ok (sd.ankiEncode (export_as_anki deck cards card_progress))
    | .markdown =>
      .ok (.utf8 (mdEncode deck.title deck.description
        (cards.map (fun c => (c.front, c.back)))))

/-- Loop of `export_decks`: export each deck in the caller-supplied order,
fail fast, and extend the accumulated byte payload. -/
def exportDecksLoop (sd : Serde) (now : Nat) (s : Store) (user_id : Nat)
    (format : ExportFormat) (ip im : Bool) :
    List Nat → ByteData → Except AppError ByteData
  | [], acc => .ok acc
  | did :: rest, acc =>
    match export_deck sd now s user_id did format ip im with
    | .error e => .error e
    | .ok bs => exportDecksLoop sd now s user_id format ip im rest (acc.app bs)

/-- `export_decks` (lines 74–98). -/
def export_decks (sd : Serde) (now : Nat) (s : Store) (user_id : Nat)
    (deck_ids : List Nat) (format : ExportFormat) (ip im : Bool) :
    Except AppError ByteData :=
  exportDecksLoop sd now s user_id format ip im deck_ids (.utf8 [])

/-! ## Characterization of the card-insert loops -/

/-- The card rows written by the JSON card loop when the fresh ids
`base, base + 1, …` are drawn and positions start at `pos`. -/
def jsonRows (now did : Nat) : Nat → Nat → List ExportedCard → List CardRow
  | _, _, [] => []
  | base, pos, c :: rest =>
    ⟨base, did, c.front, c.back, (pos : Int), now, now⟩ ::
      jsonRows now did (base + 1) (pos + 1) rest

/-- The card rows written by the plain card loop (CSV / Markdown). -/
def plainRows (now did : Nat) : Nat → Nat → List (Str × Str) → List CardRow
  | _, _, [] => []
  | base, pos, c :: rest =>
    ⟨base, did, c.1, c.2, (pos : Int), now, now⟩ ::
      plainRows now did (base + 1) (pos + 1) rest

/-- The card rows written by the Anki note loop: notes with fewer than two
fields advance the position index but write nothing. -/
def ankiRows (now did : Nat) : Nat → Nat → List AnkiNote → List CardRow
  | _, _, [] => []
  | base, pos, n :: rest =>
    if n.fields.length ≥ 2 then
      ⟨base, did, n.fields.getD 0 [], n.fields.getD 1 [], (pos : Int), now, now⟩ ::
        ankiRows now did (base + 1) (pos + 1) rest
    else ankiRows now did base (pos + 1) rest

@[simp] theorem Store.insertCard_decks (s : Store) (c : CardRow) :
    (s.insertCard c).decks = s.decks := rfl

@[simp] theorem Store.insertCard_cards (s : Store) (c : CardRow) :
    (s.insertCard c).cards = s.cards ++ [c] := rfl

@[simp] theorem Store.insertCard_nextId (s : Store) (c : CardRow) :
    (s.insertCard c).nextId = s.nextId := rfl

@[simp] theorem Store.insertDeck_decks (s : Store) (d : DeckRow) :
    (s.insertDeck d).decks = s.decks ++ [d] := rfl

@[simp] theorem Store.insertDeck_cards (s : Store) (d : DeckRow) :
    (s.insertDeck d).cards = s.cards := rfl

@[simp] theorem Store.insertDeck_nextId (s : Store) (d : DeckRow) :
    (s.insertDeck d).nextId = s.nextId := rfl

@[simp] theorem Store.freshUuid_fst (s : Store) : s.freshUuid.1 = s.nextId := rfl

@[simp] theorem Store.freshUuid_decks (s : Store) :
    s.freshUuid.2.decks = s.decks := rfl

@[simp] theorem Store.freshUuid_cards (s : Store) :
    s.freshUuid.2.cards = s.cards := rfl

@[simp] theorem Store.freshUuid_nextId (s : Store) :
    s.freshUuid.2.nextId = s.nextId + 1 := rfl

theorem insertJsonCards_ok (now did : Nat) (cards : List ExportedCard) :
    ∀ (pos : Nat) (s : Store) (fs : List Bool) (s' : Store) (fs' : List Bool)
      (n : Nat),
      (∀ c ∈ s.cards, c.id < s.nextId) →
      insertJsonCards now did cards pos s fs = .ok (s', fs', n) →
      s'.decks = s.decks ∧
      s'.cards = s.cards ++ jsonRows now did s.nextId pos cards ∧
      n = cards.length ∧ s'.nextId = s.nextId + cards.length := by
  induction cards with
  | nil =>
    intro pos s fs s' fs' n _ h
    simp only [insertJsonCards, Except.ok.injEq, Prod.mk.injEq] at h
    obtain ⟨h1, _, h3⟩ := h
    simp [← h1, ← h3, jsonRows]
  | cons c rest ih =>
    intro pos s fs s' fs' n hwf h
    simp only [insertJsonCards] at h
    by_cases hb : (popFail fs).1
    · simp [hb] at h
    · simp only [hb, if_false, Bool.false_eq_true] at h
      have hconf : ((s.freshUuid.2).insertCardOnConflict
          ⟨s.freshUuid.1, did, c.front, c.back, (pos : Int), now, now⟩) =
          (s.freshUuid.2).insertCard
            ⟨s.freshUuid.1, did, c.front, c.back, (pos : Int), now, now⟩ := by
        rw [Store.insertCardOnConflict, if_neg]
        simp only [Store.freshUuid_cards, List.any_eq_true, decide_eq_true_eq,
          Store.freshUuid_fst]
        rintro ⟨x, hx, he⟩
        exact absurd he (Nat.ne_of_lt (hwf x hx))
      rw [hconf] at h
      cases hrec : insertJsonCards now did rest (pos + 1)
          ((s.freshUuid.2).insertCard
            ⟨s.freshUuid.1, did, c.front, c.back, (pos : Int), now, now⟩)
          (popFail fs).2 with
      | error e => rw [hrec] at h; simp at h
      | ok t =>
        obtain ⟨sf, fsf, m⟩ := t
        rw [hrec] at h
        simp only [Except.ok.injEq, Prod.mk.injEq] at h
        obtain ⟨h1, _, h3⟩ := h
        have hwf2 : ∀ x ∈ ((s.freshUuid.2).insertCard
            ⟨s.freshUuid.1, did, c.front, c.back, (pos : Int), now, now⟩).cards,
            x.id < ((s.freshUuid.2).insertCard
              ⟨s.freshUuid.1, did, c.front, c.back, (pos : Int), now, now⟩).nextId := by
          intro x hx
          simp only [Store.insertCard_cards, Store.freshUuid_cards,
            List.mem_append, List.mem_singleton] at hx
          simp only [Store.insertCard_nextId, Store.freshUuid_nextId]
          rcases hx with hx | hx
          · exact Nat.lt_succ_of_lt (hwf x hx)
          · rw [hx]; exact Nat.lt_succ_self _
        obtain ⟨g1, g2, g3, g4⟩ := ih (pos + 1) _ _ _ _ _ hwf2 hrec
        subst h1
        refine ⟨?_, ?_, ?_, ?_⟩
        · rw [g1]; simp
        · rw [g2]; simp [jsonRows]
        · simp only [List.length_cons]; omega
        · rw [g4]
          simp only [Store.insertCard_nextId, Store.freshUuid_nextId,
            List.length_cons]
          omega

theorem insertPlainCards_ok (now did : Nat) (ps : List (Str × Str)) :
    ∀ (pos : Nat) (s : Store) (fs : List Bool) (s' : Store) (fs' : List Bool),
      insertPlainCards now did ps pos s fs = .ok (s', fs') →
      s'.decks = s.decks ∧
      s'.cards = s.cards ++ plainRows now did s.nextId pos ps ∧
      s'.nextId = s.nextId + ps.length := by
  induction ps with
  | nil =>
    intro pos s fs s' fs' h
    simp only [insertPlainCards, Except.ok.injEq, Prod.mk.injEq] at h
    simp [← h.1, plainRows]
  | cons c rest ih =>
    intro pos s fs s' fs' h
    simp only [insertPlainCards] at h
    by_cases hb : (popFail fs).1
    · simp [hb] at h
    · simp only [hb, if_false, Bool.false_eq_true] at h
      obtain ⟨g1, g2, g3⟩ := ih (pos + 1) _ _ _ _ h
      refine ⟨by rw [g1]; simp, ?_, ?_⟩
      · rw [g2]; simp [plainRows]
      · rw [g3]
        simp only [Store.insertCard_nextId, Store.freshUuid_nextId,
          List.length_cons]
        omega

theorem insertAnkiNotes_ok (now did : Nat) (notes : List AnkiNote) :
    ∀ (pos : Nat) (s : Store) (fs : List Bool) (s' : Store) (fs' : List Bool),
      insertAnkiNotes now did notes pos s fs = .ok (s', fs') →
      s'.decks = s.decks ∧
      s'.cards = s.cards ++ ankiRows now did s.nextId pos notes := by
  induction notes with
  | nil =>
    intro pos s fs s' fs' h
    simp only [insertAnkiNotes, Except.ok.injEq, Prod.mk.injEq] at h
    simp [← h.1, ankiRows]
  | cons note rest ih =>
    intro pos s fs s' fs' h
    simp only [insertAnkiNotes] at h
    by_cases hn : note.fields.length ≥ 2
    · simp only [hn, if_true] at h
      by_cases hb : (popFail fs).1
      · simp [hb] at h
      · simp only [hb, if_false, Bool.false_eq_true] at h
        obtain ⟨g1, g2⟩ := ih (pos + 1) _ _ _ _ h
        refine ⟨by rw [g1]; simp, ?_⟩
        rw [g2]
        simp [ankiRows, hn]
    · simp only [hn, if_false] at h
      obtain ⟨g1, g2⟩ := ih (pos + 1) _ _ _ _ h
      refine ⟨g1, ?_⟩
      rw [g2]
      simp [ankiRows, hn]

theorem jsonRows_payload (now did : Nat) (cards : List ExportedCard) :
    ∀ base pos, (jsonRows now did base pos cards).map (fun r => (r.front, r.back)) =
      cards.map (fun c => (c.front, c.back)) := by
  induction cards with
  | nil => intro base pos; simp [jsonRows]
  | cons c rest ih => intro base pos; simp [jsonRows, ih]

theorem plainRows_payload (now did : Nat) (ps : List (Str × Str)) :
    ∀ base pos, (plainRows now did base pos ps).map (fun r => (r.front, r.back)) =
      ps := by
  induction ps with
  | nil => intro base pos; simp [plainRows]
  | cons c rest ih => intro base pos; simp [plainRows, ih]

theorem ankiRows_payload (now did : Nat) (notes : List AnkiNote) :
    ∀ base pos, (ankiRows now did base pos notes).map (fun r => (r.front, r.back)) =
      (notes.filter (fun nt => nt.fields.length ≥ 2)).map
        (fun nt => (nt.fields.getD 0 [], nt.fields.getD 1 [])) := by
  induction notes with
  | nil => intro base pos; simp [ankiRows]
  | cons note rest ih =>
    intro base pos
    by_cases hn : note.fields.length ≥ 2
    · simp [ankiRows, hn, List.filter_cons, ih]
    · simp [ankiRows, hn, List.filter_cons, ih]

theorem jsonRows_positions (now did : Nat) (cards : List ExportedCard) :
    ∀ base pos, (jsonRows now did base pos cards).map (fun r => r.position) =
      (List.range cards.length).map (fun i => ((pos + i : Nat) : Int)) := by
  induction cards with
  | nil => intro base pos; simp [jsonRows]
  | cons c rest ih =>
    intro base pos
    rw [List.length_cons, List.range_succ_eq_map]
    simp only [jsonRows, List.map_cons, List.map_map, ih]
    congr 1
    apply List.map_congr_left
    intro i hi
    simp only [Function.comp_apply]
    omega

theorem jsonRows_deck (now did : Nat) (cards : List ExportedCard) :
    ∀ base pos, ∀ r ∈ jsonRows now did base pos cards, r.deck_id = did := by
  induction cards with
  | nil => intro base pos r hr; simp [jsonRows] at hr
  | cons c rest ih =>
    intro base pos r hr
    simp only [jsonRows, List.mem_cons] at hr
    rcases hr with hr | hr
    · rw [hr]
    · exact ih _ _ r hr

theorem jsonRows_length (now did : Nat) (cards : List ExportedCard) :
    ∀ base pos, (jsonRows now did base pos cards).length = cards.length := by
  induction cards with
  | nil => intro base pos; simp [jsonRows]
  | cons c rest ih => intro base pos; simp [jsonRows, ih]

theorem ankiRows_length (now did : Nat) (notes : List AnkiNote) :
    ∀ base pos, (ankiRows now did base pos notes).length =
      (notes.filter (fun nt => nt.fields.length ≥ 2)).length := by
  induction notes with
  | nil => intro base pos; simp [ankiRows]
  | cons note rest ih =>
    intro base pos
    by_cases hn : note.fields.length ≥ 2
    · simp [ankiRows, hn, List.filter_cons, ih]
    · simp [ankiRows, hn, List.filter_cons, ih]

/-- The validate operation at the service boundary, with the store threaded
alongside: `validate_import` takes no database handle (its signature is
`(data: &[u8], format: &ImportFormat)`), so the store passes it untouched. -/
def runValidate (sd : Serde) (s : Store) (data : ByteData)
    (format : ImportFormat) : Store × ImportValidationResult :=
  (s, validate_import sd data format)

/-! ## Concrete fixtures for witnesses and counterexamples -/

/-- Empty store. -/
def store0 : Store := ⟨[], [], 0⟩

/-- A deck row titled `"T"` owned by user 7. -/
def deckT : DeckRow := ⟨50, 7, none, str "T", none, false, 0, 0⟩

/-- A store already holding `deckT`. -/
def store1 : Store := ⟨[deckT], [], 51⟩

/-- A card of `deckT` at position 0. -/
def cardT : CardRow := ⟨60, 50, str "Q0", str "A0", 0, 0, 0⟩

/-- A store holding `deckT` with one card at position 0. -/
def store2 : Store := ⟨[deckT], [cardT], 61⟩

/-- A decoded JSON export card. -/
def fixtureCardX : ExportedCard :=
  ⟨100, str "F", str "B", none, [], none, [], 0, 0, none⟩

/-- A decoded JSON export of a one-card deck titled `"T"`. -/
def fixtureDeckT : ExportedDeck :=
  ⟨200, str "T", none, [], 0, 0, [fixtureCardX],
    ⟨str "1.0", 0, str "DeckOracle", str "json", 1, false, false⟩⟩

/-- A decoded Anki deck with one two-field note and one one-field note. -/
def fixtureAnki : AnkiDeck :=
  ⟨str "A", [], [],
    [⟨1, str "g1", 1, [str "F1", str "B1"], []⟩,
     ⟨2, str "g2", 1, [str "solo"], []⟩], []⟩

/-- A decoded JSON export of a deck with no cards. -/
def fixtureDeckEmpty : ExportedDeck :=
  ⟨201, str "E", none, [], 0, 0, [],
    ⟨str "1.0", 0, str "DeckOracle", str "json", 0, false, false⟩⟩

/-- A concrete serde implementation for instantiating the theorems: it
decodes the designated test payloads to the fixtures above and rejects
everything else. -/
def testSerde : Serde :=
  { jsonEncode := fun _ => .binary []
    jsonDecode := fun d =>
      if d = .utf8 (str "J") then .ok fixtureDeckT
      else if d = .utf8 (str "J0") then .ok fixtureDeckEmpty
      else .error (str "parse")
    ankiEncode := fun _ => .binary []
    ankiDecode := fun d =>
      if d = .utf8 (str "K") then .ok fixtureAnki else .error (str "parse") }

/-! ## Claims -/

/-- **C7**: for every input byte sequence and every format, `validate_import`
performs no storage write — it never creates, modifies, or deletes any deck
or card, regardless of whether the input is valid or invalid.  The Rust
function takes no database handle, so the store passes the standalone call
untouched; and when a failed validation short-circuits an import call, that
call returns before any storage access as well. -/
theorem validate_never_writes (sd : Serde) (s : Store) (data : ByteData)
    (format : ImportFormat) (now : Nat) (fs : List Bool) (uid : Nat)
    (fid : Option Nat) (md : Bool) :
    (runValidate sd s data format).1 = s ∧
    ((validate_import sd data format).is_valid = false →
      (runImportDecks sd now fs s uid data format fid md).1 = s) := by
  refine ⟨rfl, fun hinv => ?_⟩
  simp [runImportDecks, import_decks, hinv]

/-- Witness for C7 at a concrete invalid input (non-UTF-8 Markdown bytes)
against a non-empty store. -/
theorem validate_never_writes_witness :
    (runValidate testSerde store1 (.binary [255]) .markdown).1 = store1 ∧
    (runImportDecks testSerde 0 [] store1 7 (.binary [255]) .markdown none true).1
      = store1 := by
  have h := validate_never_writes testSerde store1 (.binary [255]) .markdown
    0 [] 7 none true
  exact ⟨h.1, h.2 (by rfl)⟩

/-- **C10**: for every successful Anki import, the returned `ImportResult`'s
`total_cards_imported` and per-deck `card_count` equal the total number of
notes in the decoded input, while a card row is persisted only for notes
with at least two fields — so the reported count can exceed the number of
cards actually written. -/
theorem anki_import_reports_all_notes (sd : Serde) (now : Nat) (fs : List Bool)
    (s : Store) (uid : Nat) (data : ByteData) (fid : Option Nat) (md : Bool)
    (adeck : AnkiDeck) (s' : Store) (r : ImportResult)
    (hdec : sd.ankiDecode data = .ok adeck)
    (h : import_from_anki sd now fs s uid data fid md = .ok (s', r)) :
    r.total_cards_imported = adeck.notes.length ∧
    (∀ idk ∈ r.imported_decks, idk.card_count = adeck.notes.length) ∧
    s'.cards.length = s.cards.length +
      (adeck.notes.filter (fun nt => nt.fields.length ≥ 2)).length := by
  simp only [import_from_anki] at h
  rw [hdec] at h
  by_cases hb : (popFail fs).1
  · simp [hb] at h
  · simp only [hb, if_false, Bool.false_eq_true] at h
    cases hrec : insertAnkiNotes now (s.freshUuid.1) adeck.notes 0
        ((s.freshUuid.2).insertDeck ⟨s.freshUuid.1, uid, fid, adeck.name,
          some adeck.desc, false, now, now⟩) (popFail fs).2 with
    | error e => rw [hrec] at h; simp at h
    | ok t =>
      obtain ⟨s2, fs2⟩ := t
      rw [hrec] at h
      simp only [Except.ok.injEq, Prod.mk.injEq] at h
      obtain ⟨h1, h2⟩ := h
      obtain ⟨g1, g2⟩ := insertAnkiNotes_ok _ _ _ _ _ _ _ _ hrec
      subst h1
      subst h2
      refine ⟨rfl, ?_, ?_⟩
      · intro idk hidk
        simp only [List.mem_singleton] at hidk
        rw [hidk]
      · rw [g2]
        simp [ankiRows_length]

/-- The store produced by importing the fixture Anki payload into the empty
store. -/
def ankiWitnessStore : Store :=
  ⟨[⟨0, 7, none, str "A", some [], false, 0, 0⟩],
   [⟨1, 0, str "F1", str "B1", 0, 0, 0⟩], 2⟩

/-- The result reported for that import. -/
def ankiWitnessResult : ImportResult :=
  ⟨true, [⟨0, str "A", 2, false⟩], [], [], 2, 1⟩

/-- Witness for C10: the fixture Anki deck has two notes, one of which has a
single field; the import reports two cards but persists one row. -/
theorem anki_import_reports_all_notes_witness :
    ankiWitnessResult.total_cards_imported = fixtureAnki.notes.length ∧
    ankiWitnessStore.cards.length = store0.cards.length +
      (fixtureAnki.notes.filter (fun nt => nt.fields.length ≥ 2)).length := by
  have h := anki_import_reports_all_notes testSerde 0 [] store0 7
    (.utf8 (str "K")) none false fixtureAnki ankiWitnessStore ankiWitnessResult
    (by rfl) (by rfl)
  exact ⟨h.1, h.2.2⟩

/-- **C4 (counterexample)**: a CSV input that decodes successfully with zero
records is rejected (`is_valid = false`, classified as an error with no
warning), contradicting the claim that every format reports a zero-card
decode success as a warning with `is_valid = true`. -/
theorem validate_empty_csv_cex :
    (validate_import testSerde (.utf8 (str "")) .csv).is_valid = false ∧
    (validate_import testSerde (.utf8 (str "")) .csv).errors ≠ [] ∧
    (validate_import testSerde (.utf8 (str "")) .csv).warnings = [] := by
  refine ⟨rfl, ?_, rfl⟩
  decide

/-- **C4 (amended)**: the decode-failure/zero-card classification rule holds
for the JSON, Anki and Markdown formats (failure ⇒ `is_valid = false` with
the failure recorded in `errors`; success with zero cards ⇒ `is_valid =
true` with a warning and `deck_count`/`card_count` populated as 1/0), but
for CSV a decode with zero records is classified as an **error**
(`is_valid = false`), and a CSV decode with records is valid with
`card_count` the number of records. -/
theorem validate_classification (sd : Serde) (data : ByteData) :
    (∀ e, sd.jsonDecode data = .error e →
      (validate_import sd data .json).is_valid = false ∧
      (validate_import sd data .json).errors ≠ []) ∧
    (∀ deck, sd.jsonDecode data = .ok deck → deck.cards = [] →
      (validate_import sd data .json).is_valid = true ∧
      (validate_import sd data .json).errors = [] ∧
      (validate_import sd data .json).warnings ≠ [] ∧
      (validate_import sd data .json).deck_count = 1 ∧
      (validate_import sd data .json).card_count = 0) ∧
    (∀ e, sd.ankiDecode data = .error e →
      (validate_import sd data .anki).is_valid = false ∧
      (validate_import sd data .anki).errors ≠ []) ∧
    (∀ adeck, sd.ankiDecode data = .ok adeck → adeck.notes = [] →
      (validate_import sd data .anki).is_valid = true ∧
      (validate_import sd data .anki).errors = [] ∧
      (validate_import sd data .anki).warnings ≠ [] ∧
      (validate_import sd data .anki).deck_count = 1 ∧
      (validate_import sd data .anki).card_count = 0) ∧
    (∀ bs, data = .binary bs →
      (validate_import sd data .markdown).is_valid = false ∧
      (validate_import sd data .markdown).errors ≠ []) ∧
    (∀ content, data = .utf8 content →
      countMatches '#' (str "# Card") content = 0 →
      (validate_import sd data .markdown).is_valid = true ∧
      (validate_import sd data .markdown).errors = [] ∧
      (validate_import sd data .markdown).warnings ≠ [] ∧
      (validate_import sd data .markdown).deck_count = 1 ∧
      (validate_import sd data .markdown).card_count = 0) ∧
    (csvRecordResults data = [] →
      (validate_import sd data .csv).is_valid = false ∧
      (validate_import sd data .csv).errors ≠ [] ∧
      (validate_import sd data .csv).warnings = []) ∧
    (csvRecordResults data ≠ [] →
      (validate_import sd data .csv).is_valid = true ∧
      (validate_import sd data .csv).card_count =
        (csvRecordResults data).length ∧
      (validate_import sd data .csv).deck_count = 1) := by
  refine ⟨?_, ?_, ?_, ?_, ?_, ?_, ?_, ?_⟩
  · intro e hdec
    simp [validate_import, hdec]
  · intro deck hdec hc
    simp [validate_import, hdec, hc]
  · intro e hdec
    simp [validate_import, hdec]
  · intro adeck hdec hc
    simp [validate_import, hdec, hc]
  · intro bs hdata
    subst hdata
    simp [validate_import]
  · intro content hdata hzero
    subst hdata
    simp [validate_import, hzero]
  · intro hnil
    simp [validate_import, hnil]
  · intro hne
    have hlen : (csvRecordResults data).length ≠ 0 := by
      simpa [List.length_eq_zero] using hne
    simp [validate_import, hlen]

/-- Witness for C4 (amended) at concrete inputs for each clause group. -/
theorem validate_classification_witness :
    (validate_import testSerde (.utf8 (str "x")) .json).is_valid = false ∧
    (validate_import testSerde (.utf8 (str "J0")) .json).is_valid = true ∧
    (validate_import testSerde (.utf8 (str "J0")) .json).warnings ≠ [] ∧
    (validate_import testSerde (.binary [255]) .markdown).is_valid = false ∧
    (validate_import testSerde (.utf8 (str "hello")) .markdown).is_valid = true ∧
    (validate_import testSerde (.utf8 (str "")) .csv).is_valid = false ∧
    (validate_import testSerde
      (.utf8 (str "front,back\nQ1,A1\nQ2,A2")) .csv).is_valid = true ∧
    (validate_import testSerde
      (.utf8 (str "front,back\nQ1,A1\nQ2,A2")) .csv).card_count = 2 := by
  refine ⟨?_, ?_, ?_, ?_, ?_, ?_, ?_, ?_⟩
  · exact ((validate_classification testSerde (.utf8 (str "x"))).1
      (str "parse") (by rfl)).1
  · exact ((validate_classification testSerde (.utf8 (str "J0"))).2.1
      fixtureDeckEmpty (by rfl) (by rfl)).1
  · exact ((validate_classification testSerde (.utf8 (str "J0"))).2.1
      fixtureDeckEmpty (by rfl) (by rfl)).2.2.1
  · exact ((validate_classification testSerde (.binary [255])).2.2.2.2.1
      [255] rfl).1
  · exact ((validate_classification testSerde
      (.utf8 (str "hello"))).2.2.2.2.2.1 (str "hello") rfl (by decide)).1
  · exact ((validate_classification testSerde
      (.utf8 (str ""))).2.2.2.2.2.2.1 (by decide)).1
  · exact ((validate_classification testSerde
      (.utf8 (str "front,back\nQ1,A1\nQ2,A2"))).2.2.2.2.2.2.2
      (by decide)).1
  · exact ((validate_classification testSerde
      (.utf8 (str "front,back\nQ1,A1\nQ2,A2"))).2.2.2.2.2.2.2
      (by decide)).2.1

/-- **C3 (counterexample)**: a Markdown import whose decoded title `"T"`
matches an existing deck of the acting user, with `mergeDuplicates = false`,
does not fail with a duplicate-deck error: it succeeds and writes a second
deck with the same title (`was_merged = false`). -/
theorem duplicate_title_other_formats_cex :
    (runImportDecks testSerde 0 [] store1 7
      (.utf8 (str "# T\n## Card 1\n**Front:** X")) .markdown none false).2 =
      .ok ⟨true, [⟨51, str "T", 1, false⟩], [], [], 1, 1⟩ ∧
    (runImportDecks testSerde 0 [] store1 7
      (.utf8 (str "# T\n## Card 1\n**Front:** X")) .markdown none false).1.decks
      = [deckT, ⟨51, 7, none, str "T", none, false, 0, 0⟩] := by
  exact ⟨rfl, rfl⟩

/-- **C3 (amended)**: the duplicate-title policy of the claim is implemented
only by the JSON importer — an existing deck of the acting user with the
decoded title makes the whole JSON operation fail with a duplicate-deck
`BadRequest` and no writes when `mergeDuplicates = false`, and targets the
existing deck with `was_merged = true` when `mergeDuplicates = true`.  The
CSV, Anki and Markdown importers perform no duplicate check at all: they
always create a fresh deck and report `was_merged = false`, whatever the
store holds and whatever `mergeDuplicates` is. -/
theorem duplicate_title_policy (sd : Serde) (now : Nat) (fs : List Bool)
    (s : Store) (uid : Nat) (data : ByteData) (fid : Option Nat)
    (hwf : ∀ c ∈ s.cards, c.id < s.nextId) :
    (∀ deck ex, sd.jsonDecode data = .ok deck →
      s.findDeckByOwnerTitle uid deck.title = some ex →
      import_from_json sd now fs s uid data fid false =
        .error (.BadRequest (str "Deck with same name already exists")) ∧
      (runImportDecks sd now fs s uid data .json fid false).1 = s) ∧
    (∀ deck ex, sd.jsonDecode data = .ok deck →
      s.findDeckByOwnerTitle uid deck.title = some ex →
      ∀ s' r, import_from_json sd now fs s uid data fid true = .ok (s', r) →
        s'.decks = s.decks ∧
        r.imported_decks = [⟨ex.id, deck.title, deck.cards.length, true⟩]) ∧
    (∀ content mdup, data = .utf8 content →
      ∀ s' r, import_from_markdown now fs s uid data fid mdup = .ok (s', r) →
        s'.decks = s.decks ++
          [⟨s.nextId, uid, fid, (mdParse content).1, none, false, now, now⟩] ∧
        ∀ idk ∈ r.imported_decks, idk.was_merged = false) ∧
    (∀ mdup s' r, import_from_csv now fs s uid data fid mdup = .ok (s', r) →
        s'.decks = s.decks ++
          [⟨s.nextId, uid, fid, csvDeckTitle now,
            some (str "Imported from CSV"), false, now, now⟩] ∧
        ∀ idk ∈ r.imported_decks, idk.was_merged = false) ∧
    (∀ adeck mdup, sd.ankiDecode data = .ok adeck →
      ∀ s' r, import_from_anki sd now fs s uid data fid mdup = .ok (s', r) →
        s'.decks = s.decks ++
          [⟨s.nextId, uid, fid, adeck.name, some adeck.desc, false,
            now, now⟩] ∧
        ∀ idk ∈ r.imported_decks, idk.was_merged = false) := by
  refine ⟨?_, ?_, ?_, ?_, ?_⟩
  · intro deck ex hdec hfind
    have himp : import_from_json sd now fs s uid data fid false =
        .error (.BadRequest (str "Deck with same name already exists")) := by
      simp [import_from_json, hdec, hfind]
    refine ⟨himp, ?_⟩
    have hval : (validate_import sd data .json).is_valid = true := by
      simp [validate_import, hdec]
    simp [runImportDecks, import_decks, hval, himp]
  · intro deck ex hdec hfind s' r h
    simp only [import_from_json, importJsonFinish, hdec, hfind,
      eq_self_iff_true, not_true, if_false] at h
    cases hrec : insertJsonCards now ex.id deck.cards 0 s fs with
    | error e => rw [hrec] at h; simp at h
    | ok t =>
      obtain ⟨s2, fs2, n⟩ := t
      rw [hrec] at h
      simp only [Except.ok.injEq, Prod.mk.injEq] at h
      obtain ⟨h1, h2⟩ := h
      obtain ⟨g1, _, g3, _⟩ := insertJsonCards_ok _ _ _ _ _ _ _ _ _ hwf hrec
      subst h1
      subst h2
      exact ⟨g1, by rw [g3]⟩
  · intro content mdup hdata s' r h
    subst hdata
    simp only [import_from_markdown] at h
    by_cases hb : (popFail fs).1
    · simp [hb] at h
    · simp only [hb, if_false, Bool.false_eq_true] at h
      cases hrec : insertPlainCards now (s.freshUuid.1) (mdParse content).2 0
          ((s.freshUuid.2).insertDeck ⟨s.freshUuid.1, uid, fid,
            (mdParse content).1, none, false, now, now⟩) (popFail fs).2 with
      | error e => rw [hrec] at h; simp at h
      | ok t =>
        obtain ⟨s2, fs2⟩ := t
        rw [hrec] at h
        simp only [Except.ok.injEq, Prod.mk.injEq] at h
        obtain ⟨h1, h2⟩ := h
        obtain ⟨g1, _, _⟩ := insertPlainCards_ok _ _ _ _ _ _ _ _ hrec
        subst h1
        subst h2
        constructor
        · rw [g1]; simp
        · intro idk hidk
          simp only [List.mem_singleton] at hidk
          rw [hidk]
  · intro mdup s' r h
    simp only [import_from_csv] at h
    cases hcol : csvCollectCards (csvRecordResults data) with
    | error e => rw [hcol] at h; simp at h
    | ok cards =>
      rw [hcol] at h
      by_cases hb : (popFail fs).1
      · simp [hb] at h
      · simp only [hb, if_false, Bool.false_eq_true] at h
        cases hrec : insertPlainCards now (s.freshUuid.1)
            (cards.map (fun c => (c.front, c.back))) 0
            ((s.freshUuid.2).insertDeck ⟨s.freshUuid.1, uid, fid,
              csvDeckTitle now, some (str "Imported from CSV"), false,
              now, now⟩) (popFail fs).2 with
        | error e => rw [hrec] at h; simp at h
        | ok t =>
          obtain ⟨s2, fs2⟩ := t
          rw [hrec] at h
          simp only [Except.ok.injEq, Prod.mk.injEq] at h
          obtain ⟨h1, h2⟩ := h
          obtain ⟨g1, _, _⟩ := insertPlainCards_ok _ _ _ _ _ _ _ _ hrec
          subst h1
          subst h2
          constructor
          · rw [g1]; simp
          · intro idk hidk
            simp only [List.mem_singleton] at hidk
            rw [hidk]
  · intro adeck mdup hdec s' r h
    simp only [import_from_anki] at h
    rw [hdec] at h
    by_cases hb : (popFail fs).1
    · simp [hb] at h
    · simp only [hb, if_false, Bool.false_eq_true] at h
      cases hrec : insertAnkiNotes now (s.freshUuid.1) adeck.notes 0
          ((s.freshUuid.2).insertDeck ⟨s.freshUuid.1, uid, fid, adeck.name,
            some adeck.desc, false, now, now⟩) (popFail fs).2 with
      | error e => rw [hrec] at h; simp at h
      | ok t =>
        obtain ⟨s2, fs2⟩ := t
        rw [hrec] at h
        simp only [Except.ok.injEq, Prod.mk.injEq] at h
        obtain ⟨h1, h2⟩ := h
        obtain ⟨g1, _⟩ := insertAnkiNotes_ok _ _ _ _ _ _ _ _ hrec
        subst h1
        subst h2
        constructor
        · rw [g1]; simp
        · intro idk hidk
          simp only [List.mem_singleton] at hidk
          rw [hidk]

/-- Witness for C3 (amended): against a store holding a deck titled `"T"`
owned by user 7, the JSON import of a deck titled `"T"` with
`mergeDuplicates = false` errors and writes nothing, while a Markdown import
of a deck titled `"T"` creates a fresh second deck. -/
theorem duplicate_title_policy_witness :
    import_from_json testSerde 0 [] store1 7 (.utf8 (str "J")) none false =
      .error (.BadRequest (str "Deck with same name already exists")) ∧
    (runImportDecks testSerde 0 [] store1 7 (.utf8 (str "J")) .json none
      false).1 = store1 ∧
    (⟨[deckT, ⟨51, 7, none, str "T", none, false, 0, 0⟩],
      [⟨52, 51, str "X", [], 0, 0, 0⟩], 53⟩ : Store).decks =
      store1.decks ++ [⟨51, 7, none, str "T", none, false, 0, 0⟩] := by
  have h := duplicate_title_policy testSerde 0 [] store1 7 (.utf8 (str "J"))
    none (by intro c hc; simp [store1] at hc)
  have h1 := h.1 fixtureDeckT deckT (by rfl) (by rfl)
  have h' := duplicate_title_policy testSerde 0 [] store1 7
    (.utf8 (str "# T\n## Card 1\n**Front:** X")) none
    (by intro c hc; simp [store1] at hc)
  have h3 := (h'.2.2.1 (str "# T\n## Card 1\n**Front:** X") false rfl
    ⟨[deckT, ⟨51, 7, none, str "T", none, false, 0, 0⟩],
      [⟨52, 51, str "X", [], 0, 0, 0⟩], 53⟩
    ⟨true, [⟨51, str "T", 1, false⟩], [], [], 1, 1⟩ (by rfl)).1
  exact ⟨h1.1, h1.2, h3⟩

/-- **C5 (counterexample)**: merging a one-card JSON import into an existing
deck whose only card sits at position 0 persists the new card at position 0
again (positions `[0, 0]`), not at the current maximum plus one (which the
claim would require to give `[0, 1]`). -/
theorem import_positions_merge_cex :
    ((runImportDecks testSerde 0 [] store2 7 (.utf8 (str "J")) .json none
      true).1.cards.map (fun c => c.position)) = [0, 0] ∧
    ¬ (([0, 0] : List Int) = [0, 1]) := by
  exact ⟨rfl, by decide⟩

/-- **C5 (amended)**: every successful JSON import persists its cards in
decoded source order with positions exactly `0 .. K-1` — the loop index
always restarts at zero, both for a freshly created deck (as the claim
states) and when merging into an existing deck (where the claim's
"current max + 1" start does not happen). -/
theorem import_positions_zero_based (sd : Serde) (now : Nat) (fs : List Bool)
    (s : Store) (uid : Nat) (data : ByteData) (fid : Option Nat) (md : Bool)
    (deck : ExportedDeck) (s' : Store) (r : ImportResult)
    (hwf : ∀ c ∈ s.cards, c.id < s.nextId)
    (hdec : sd.jsonDecode data = .ok deck)
    (h : import_from_json sd now fs s uid data fid md = .ok (s', r)) :
    s'.cards.take s.cards.length = s.cards ∧
    (s'.cards.drop s.cards.length).map (fun c => (c.front, c.back)) =
      deck.cards.map (fun c => (c.front, c.back)) ∧
    (s'.cards.drop s.cards.length).map (fun c => c.position) =
      (List.range deck.cards.length).map Int.ofNat := by
  have main : ∃ rows, s'.cards = s.cards ++ rows ∧
      rows.map (fun c => (c.front, c.back)) =
        deck.cards.map (fun c => (c.front, c.back)) ∧
      rows.map (fun c => c.position) =
        (List.range deck.cards.length).map Int.ofNat := by
    simp only [import_from_json, importJsonFinish, hdec] at h
    cases hfind : s.findDeckByOwnerTitle uid deck.title with
    | some ex =>
      rw [hfind] at h
      by_cases hm : md
      · subst hm
        simp only [eq_self_iff_true, not_true, if_false] at h
        cases hrec : insertJsonCards now ex.id deck.cards 0 s fs with
        | error e => rw [hrec] at h; simp at h
        | ok t =>
          obtain ⟨s2, fs2, n⟩ := t
          rw [hrec] at h
          simp only [Except.ok.injEq, Prod.mk.injEq] at h
          obtain ⟨h1, _⟩ := h
          obtain ⟨_, g2, _, _⟩ := insertJsonCards_ok _ _ _ _ _ _ _ _ _ hwf hrec
          subst h1
          refine ⟨jsonRows now ex.id s.nextId 0 deck.cards, g2,
            jsonRows_payload _ _ _ _ _, ?_⟩
          rw [jsonRows_positions]
          apply List.map_congr_left
          intro i hi
          simp [Int.ofNat_eq_coe]
      · simp only [hm] at h
        simp at h
    | none =>
      rw [hfind] at h
      by_cases hb : (popFail fs).1
      · simp [hb] at h
      · simp only [hb, if_false, Bool.false_eq_true] at h
        cases hrec : insertJsonCards now (s.freshUuid.1) deck.cards 0
            ((s.freshUuid.2).insertDeck ⟨s.freshUuid.1, uid, fid, deck.title,
              deck.description, false, now, now⟩) (popFail fs).2 with
        | error e => rw [hrec] at h; simp at h
        | ok t =>
          obtain ⟨s2, fs2, n⟩ := t
          rw [hrec] at h
          simp only [Except.ok.injEq, Prod.mk.injEq] at h
          obtain ⟨h1, _⟩ := h
          have hwf2 : ∀ x ∈ ((s.freshUuid.2).insertDeck ⟨s.freshUuid.1, uid,
              fid, deck.title, deck.description, false, now, now⟩).cards,
              x.id < ((s.freshUuid.2).insertDeck ⟨s.freshUuid.1, uid, fid,
                deck.title, deck.description, false, now, now⟩).nextId := by
            intro x hx
            simp only [Store.insertDeck_cards, Store.freshUuid_cards] at hx
            simp only [Store.insertDeck_nextId, Store.freshUuid_nextId]
            exact Nat.lt_succ_of_lt (hwf x hx)
          obtain ⟨_, g2, _, _⟩ := insertJsonCards_ok _ _ _ _ _ _ _ _ _ hwf2 hrec
          subst h1
          refine ⟨jsonRows now s.freshUuid.1
              ((s.freshUuid.2).insertDeck ⟨s.freshUuid.1, uid, fid, deck.title,
                deck.description, false, now, now⟩).nextId 0 deck.cards,
            by simpa using g2, jsonRows_payload _ _ _ _ _, ?_⟩
          rw [jsonRows_positions]
          apply List.map_congr_left
          intro i hi
          simp [Int.ofNat_eq_coe]
  obtain ⟨rows, hrows, hp, hq⟩ := main
  rw [hrows]
  rw [List.take_left, List.drop_left]
  exact ⟨rfl, hp, hq⟩

/-- Witness for C5 (amended) at the concrete merge import of the C5
counterexample: the single appended row carries position 0. -/
theorem import_positions_zero_based_witness :
    ((⟨[deckT], [cardT, ⟨61, 50, str "F", str "B", 0, 0, 0⟩], 62⟩ :
      Store).cards.take store2.cards.length) = store2.cards ∧
    ((⟨[deckT], [cardT, ⟨61, 50, str "F", str "B", 0, 0, 0⟩], 62⟩ :
      Store).cards.drop store2.cards.length).map (fun c => (c.front, c.back)) =
      fixtureDeckT.cards.map (fun c => (c.front, c.back)) ∧
    ((⟨[deckT], [cardT, ⟨61, 50, str "F", str "B", 0, 0, 0⟩], 62⟩ :
      Store).cards.drop store2.cards.length).map (fun c => c.position) =
      (List.range fixtureDeckT.cards.length).map Int.ofNat := by
  exact import_positions_zero_based testSerde 0 [] store2 7 (.utf8 (str "J"))
    none true fixtureDeckT
    ⟨[deckT], [cardT, ⟨61, 50, str "F", str "B", 0, 0, 0⟩], 62⟩
    ⟨true, [⟨50, str "T", 1, true⟩], [], [], 1, 1⟩
    (by intro c hc; simp [store2, cardT] at hc; rw [hc]; decide)
    (by rfl) (by rfl)

theorem jsonRows_ids (now did : Nat) (cards : List ExportedCard) :
    ∀ base pos, ∀ r ∈ jsonRows now did base pos cards,
      base ≤ r.id ∧ r.id < base + cards.length := by
  induction cards with
  | nil => intro base pos r hr; simp [jsonRows] at hr
  | cons c rest ih =>
    intro base pos r hr
    simp only [jsonRows, List.mem_cons] at hr
    rcases hr with hr | hr
    · rw [hr]; simp
    · have := ih (base + 1) (pos + 1) r hr
      simp only [List.length_cons]
      omega

/-- **C2 (counterexample)**: importing the one-card JSON export fixture
twice with `mergeDuplicates = true` leaves one deck holding two card rows,
not the source card count of one — the insert-if-absent conflict clause
never fires because every insert uses a fresh v4 UUID, not the source card
identity. -/
theorem reimport_merge_duplicates_cards_cex :
    (runImportDecks testSerde 0 []
      (runImportDecks testSerde 0 [] store0 7 (.utf8 (str "J")) .json none
        true).1 7 (.utf8 (str "J")) .json none true).1.decks.length = 1 ∧
    (runImportDecks testSerde 0 []
      (runImportDecks testSerde 0 [] store0 7 (.utf8 (str "J")) .json none
        true).1 7 (.utf8 (str "J")) .json none true).1.cards.length = 2 ∧
    fixtureDeckT.cards.length = 1 ∧ ¬ ((2 : Nat) = 1) := by
  exact ⟨rfl, rfl, rfl, by decide⟩

/-- **C2 (amended)**: importing the same JSON export twice with
`mergeDuplicates = true` yields exactly one deck, but its final persisted
card count is twice the card count of the export: the card inserts draw a
fresh v4 UUID for every row instead of reusing the source card identity, so
the `ON CONFLICT (id) DO NOTHING` insert-if-absent clause never suppresses a
row and the second import appends duplicates (the second run does report
`was_merged = true`). -/
theorem reimport_merge_appends_duplicates (sd : Serde) (now1 now2 : Nat)
    (s : Store) (uid : Nat) (data : ByteData) (fid : Option Nat)
    (deck : ExportedDeck) (s1 s2 : Store) (r1 r2 : ImportResult)
    (hdec : sd.jsonDecode data = .ok deck)
    (hwf : s.WF)
    (hfind : s.findDeckByOwnerTitle uid deck.title = none)
    (h1 : import_from_json sd now1 [] s uid data fid true = .ok (s1, r1))
    (h2 : import_from_json sd now2 [] s1 uid data fid true = .ok (s2, r2)) :
    s2.decks = s.decks ++
      [⟨s.nextId, uid, fid, deck.title, deck.description, false, now1, now1⟩] ∧
    (s2.cards.filter (fun c => c.deck_id = s.nextId)).length =
      2 * deck.cards.length ∧
    r2.imported_decks.map (fun d => d.was_merged) = [true] := by
  obtain ⟨hwfc, hwfd, hwfr⟩ := hwf
  -- first import: no existing deck, so a fresh deck is created
  simp only [import_from_json, importJsonFinish, hdec, hfind] at h1
  have hpop : popFail ([] : List Bool) = (false, []) := rfl
  rw [hpop] at h1
  simp only [Bool.false_eq_true, if_false] at h1
  cases hrec1 : insertJsonCards now1 (s.freshUuid.1) deck.cards 0
      ((s.freshUuid.2).insertDeck ⟨s.freshUuid.1, uid, fid, deck.title,
        deck.description, false, now1, now1⟩) [] with
  | error e => rw [hrec1] at h1; simp at h1
  | ok t1 =>
    obtain ⟨sa, fsa, n1⟩ := t1
    rw [hrec1] at h1
    simp only [Except.ok.injEq, Prod.mk.injEq] at h1
    obtain ⟨hs1, _⟩ := h1
    have hwfmid : ∀ x ∈ ((s.freshUuid.2).insertDeck ⟨s.freshUuid.1, uid, fid,
        deck.title, deck.description, false, now1, now1⟩).cards,
        x.id < ((s.freshUuid.2).insertDeck ⟨s.freshUuid.1, uid, fid,
          deck.title, deck.description, false, now1, now1⟩).nextId := by
      intro x hx
      simp only [Store.insertDeck_cards, Store.freshUuid_cards] at hx
      simp only [Store.insertDeck_nextId, Store.freshUuid_nextId]
      exact Nat.lt_succ_of_lt (hwfc x hx)
    obtain ⟨ga1, ga2, ga3, ga4⟩ := insertJsonCards_ok _ _ _ _ _ _ _ _ _
      hwfmid hrec1
    subst hs1
    -- shape of the store after the first import
    have hs1decks : sa.decks = s.decks ++
        [⟨s.nextId, uid, fid, deck.title, deck.description, false,
          now1, now1⟩] := by
      rw [ga1]; simp
    have hs1cards : sa.cards = s.cards ++
        jsonRows now1 s.nextId (s.nextId + 1) 0 deck.cards := by
      rw [ga2]; simp
    have hs1next : sa.nextId = s.nextId + 1 + deck.cards.length := by
      rw [ga4]; simp
    -- the second lookup finds the deck created by the first import
    have hfind2 : sa.findDeckByOwnerTitle uid deck.title =
        some ⟨s.nextId, uid, fid, deck.title, deck.description, false,
          now1, now1⟩ := by
      rw [Store.findDeckByOwnerTitle, hs1decks, List.find?_append]
      have : s.decks.find? (fun d => d.owner_id = uid && d.title = deck.title)
          = none := hfind
      rw [this]
      simp
    simp only [import_from_json, importJsonFinish, hdec, hfind2,
      eq_self_iff_true, not_true, if_false] at h2
    cases hrec2 : insertJsonCards now2 s.nextId deck.cards 0 sa [] with
    | error e => rw [hrec2] at h2; simp at h2
    | ok t2 =>
      obtain ⟨sb, fsb, n2⟩ := t2
      rw [hrec2] at h2
      simp only [Except.ok.injEq, Prod.mk.injEq] at h2
      obtain ⟨hs2, hr2⟩ := h2
      have hwfa : ∀ x ∈ sa.cards, x.id < sa.nextId := by
        intro x hx
        rw [hs1cards] at hx
        rw [hs1next]
        rcases List.mem_append.mp hx with hx | hx
        · have := hwfc x hx; omega
        · have := jsonRows_ids now1 s.nextId deck.cards (s.nextId + 1) 0 x hx
          omega
      obtain ⟨gb1, gb2, gb3, gb4⟩ := insertJsonCards_ok _ _ _ _ _ _ _ _ _
        hwfa hrec2
      subst hs2
      subst hr2
      refine ⟨by rw [gb1, hs1decks], ?_, by simp⟩
      -- count the cards of the new deck after both imports
      rw [gb2, hs1cards]
      rw [List.filter_append, List.filter_append]
      have hold : s.cards.filter (fun c => c.deck_id = s.nextId) = [] := by
        rw [List.filter_eq_nil_iff]
        intro c hc
        obtain ⟨d, hd, hcd⟩ := hwfr c hc
        have := hwfd d hd
        simp only [decide_eq_true_eq]
        omega
      have hnew1 : (jsonRows now1 s.nextId (s.nextId + 1) 0
          deck.cards).filter (fun c => c.deck_id = s.nextId) =
          jsonRows now1 s.nextId (s.nextId + 1) 0 deck.cards := by
        rw [List.filter_eq_self]
        intro c hc
        simp only [decide_eq_true_eq]
        exact jsonRows_deck now1 s.nextId deck.cards _ _ c hc
      have hnew2 : (jsonRows now2 s.nextId sa.nextId 0
          deck.cards).filter (fun c => c.deck_id = s.nextId) =
          jsonRows now2 s.nextId sa.nextId 0 deck.cards := by
        rw [List.filter_eq_self]
        intro c hc
        simp only [decide_eq_true_eq]
        exact jsonRows_deck now2 s.nextId deck.cards _ _ c hc
      rw [hold, hnew1, hnew2]
      simp only [List.nil_append, List.length_append, jsonRows_length]
      omega

/-- Witness for C2 (amended): the double import of the one-card fixture on
the empty store yields a single deck with two rows and a merged second
report. -/
theorem reimport_merge_appends_duplicates_witness :
    (⟨[⟨0, 7, none, str "T", none, false, 0, 0⟩],
      [⟨1, 0, str "F", str "B", 0, 0, 0⟩, ⟨2, 0, str "F", str "B", 0, 0, 0⟩],
      3⟩ : Store).decks = store0.decks ++
      [⟨store0.nextId, 7, none, fixtureDeckT.title,
        fixtureDeckT.description, false, 0, 0⟩] ∧
    ((⟨[⟨0, 7, none, str "T", none, false, 0, 0⟩],
      [⟨1, 0, str "F", str "B", 0, 0, 0⟩, ⟨2, 0, str "F", str "B", 0, 0, 0⟩],
      3⟩ : Store).cards.filter
        (fun c => c.deck_id = store0.nextId)).length =
      2 * fixtureDeckT.cards.length ∧
    (⟨true, [⟨0, str "T", 1, true⟩], [], [], 1, 1⟩ :
      ImportResult).imported_decks.map (fun d => d.was_merged) = [true] := by
  exact reimport_merge_appends_duplicates testSerde 0 0 store0 7
    (.utf8 (str "J")) none fixtureDeckT
    ⟨[⟨0, 7, none, str "T", none, false, 0, 0⟩],
      [⟨1, 0, str "F", str "B", 0, 0, 0⟩], 2⟩
    ⟨[⟨0, 7, none, str "T", none, false, 0, 0⟩],
      [⟨1, 0, str "F", str "B", 0, 0, 0⟩, ⟨2, 0, str "F", str "B", 0, 0, 0⟩],
      3⟩
    ⟨true, [⟨0, str "T", 1, false⟩], [], [], 1, 1⟩
    ⟨true, [⟨0, str "T", 1, true⟩], [], [], 1, 1⟩
    (by rfl)
    ⟨by intro c hc; simp [store0] at hc,
     by intro d hd; simp [store0] at hd,
     by intro c hc; simp [store0] at hc⟩
    (by rfl) (by rfl) (by rfl)

theorem ByteData.toBytes_app (a b : ByteData) :
    (a.app b).toBytes = a.toBytes ++ b.toBytes := by
  cases a with
  | utf8 s =>
    cases b with
    | utf8 t => simp [ByteData.app, ByteData.toBytes, utf8Encode]
    | binary bs => rfl
  | binary bs => cases b <;> rfl

theorem foldl_app_toBytes (ps : List ByteData) :
    ∀ acc : ByteData, (ps.foldl ByteData.app acc).toBytes =
      acc.toBytes ++ (ps.map ByteData.toBytes).flatten := by
  induction ps with
  | nil => intro acc; simp
  | cons p rest ih =>
    intro acc
    simp only [List.foldl_cons, List.map_cons, List.flatten_cons, ih,
      ByteData.toBytes_app, List.append_assoc]

theorem exportDecksLoop_spec (sd : Serde) (now : Nat) (s : Store) (uid : Nat)
    (format : ExportFormat) (ip im : Bool) (ids : List Nat) :
    ∀ acc : ByteData,
      (∀ ps, ids.mapM (fun did => export_deck sd now s uid did format ip im)
          = .ok ps →
        exportDecksLoop sd now s uid format ip im ids acc =
          .ok (ps.foldl ByteData.app acc)) ∧
      (∀ e, ids.mapM (fun did => export_deck sd now s uid did format ip im)
          = .error e →
        exportDecksLoop sd now s uid format ip im ids acc = .error e) := by
  induction ids with
  | nil =>
    intro acc
    constructor
    · intro ps hps
      simp only [List.mapM_nil, pure, Except.pure, Except.ok.injEq] at hps
      simp [exportDecksLoop, ← hps]
    · intro e he
      simp [List.mapM, List.mapM.loop, pure, Except.pure] at he
  | cons did rest ih =>
    intro acc
    constructor
    · intro ps hps
      rw [List.mapM_cons] at hps
      cases hd : export_deck sd now s uid did format ip im with
      | error e =>
        rw [hd] at hps
        simp [Bind.bind, Except.bind] at hps
      | ok bs =>
        rw [hd] at hps
        simp only [Bind.bind, Except.bind] at hps
        cases hrest : rest.mapM
            (fun did => export_deck sd now s uid did format ip im) with
        | error e => rw [hrest] at hps; simp [pure, Except.pure] at hps
        | ok qs =>
          rw [hrest] at hps
          simp only [pure, Except.pure, Except.ok.injEq] at hps
          subst hps
          simp only [exportDecksLoop, hd, List.foldl_cons]
          exact (ih (acc.app bs)).1 qs hrest
    · intro e he
      rw [List.mapM_cons] at he
      cases hd : export_deck sd now s uid did format ip im with
      | error e2 =>
        rw [hd] at he
        simp only [Bind.bind, Except.bind, Except.error.injEq] at he
        subst he
        simp [exportDecksLoop, hd]
      | ok bs =>
        rw [hd] at he
        simp only [Bind.bind, Except.bind] at he
        cases hrest : rest.mapM
            (fun did => export_deck sd now s uid did format ip im) with
        | error e2 =>
          rw [hrest] at he
          simp only [Except.error.injEq] at he
          subst he
          simp only [exportDecksLoop, hd]
          exact (ih (acc.app bs)).2 e2 hrest
        | ok qs => rw [hrest] at he; simp [pure, Except.pure] at he

/-- **C8**: bulk export is exactly the byte-wise concatenation of the
single-deck export payloads, in the caller-supplied order, and any failing
single-deck export fails the whole bulk export with that error. -/
theorem bulk_export_concat (sd : Serde) (now : Nat) (s : Store) (uid : Nat)
    (ids : List Nat) (format : ExportFormat) (ip im : Bool) :
    (∀ ps, ids.mapM (fun did => export_deck sd now s uid did format ip im)
        = .ok ps →
      export_decks sd now s uid ids format ip im =
        .ok (ps.foldl ByteData.app (.utf8 [])) ∧
      (ps.foldl ByteData.app (.utf8 [])).toBytes =
        (ps.map ByteData.toBytes).flatten) ∧
    (∀ e, ids.mapM (fun did => export_deck sd now s uid did format ip im)
        = .error e →
      export_decks sd now s uid ids format ip im = .error e) := by
  constructor
  · intro ps hps
    refine ⟨(exportDecksLoop_spec sd now s uid format ip im ids
      (.utf8 [])).1 ps hps, ?_⟩
    rw [foldl_app_toBytes]
    simp [ByteData.toBytes, utf8Encode]
  · intro e he
    exact (exportDecksLoop_spec sd now s uid format ip im ids
      (.utf8 [])).2 e he

/-- Witness for C8: exporting deck 50 twice as CSV concatenates the two CSV
payloads; exporting a missing deck id fails the bulk export. -/
theorem bulk_export_concat_witness :
    export_decks testSerde 0 store2 7 [50, 50] .csv false false =
      .ok (([ByteData.utf8 (str "Front,Back,Tags,Explanation,Difficulty\nQ0,A0,,,\n"),
        ByteData.utf8 (str "Front,Back,Tags,Explanation,Difficulty\nQ0,A0,,,\n")]).foldl
          ByteData.app (.utf8 [])) ∧
    export_decks testSerde 0 store2 7 [99] .csv false false =
      .error (.NotFound (str "Deck not found")) := by
  constructor
  · exact ((bulk_export_concat testSerde 0 store2 7 [50, 50] .csv
      false false).1
      [ByteData.utf8 (str "Front,Back,Tags,Explanation,Difficulty\nQ0,A0,,,\n"),
       ByteData.utf8 (str "Front,Back,Tags,Explanation,Difficulty\nQ0,A0,,,\n")]
      (by rfl)).1
  · exact (bulk_export_concat testSerde 0 store2 7 [99] .csv false false).2
      (.NotFound (str "Deck not found")) (by rfl)

/-- The `(front, back)` payloads a given input decodes to under each
format — the card writes an import call is expected to commit. -/
def decodedCardPayloads (sd : Serde) (data : ByteData) :
    ImportFormat → List (Str × Str)
  | .json =>
    match sd.jsonDecode data with
    | .ok d => d.cards.map (fun c => (c.front, c.back))
    | .error _ => []
  | .csv =>
    match csvCollectCards (csvRecordResults data) with
    | .ok cs => cs.map (fun c => (c.front, c.back))
    | .error _ => []
  | .anki =>
    match sd.ankiDecode data with
    | .ok d => (d.notes.filter (fun nt => nt.fields.length ≥ 2)).map
        (fun nt => (nt.fields.getD 0 [], nt.fields.getD 1 []))
    | .error _ => []
  | .markdown =>
    match data with
    | .utf8 c => (mdParse c).2
    | .binary _ => []

/-- Shape of a successful JSON import: the committed store appends exactly
the decoded card payloads and at most one deck, and the reported deck is
persisted. -/
theorem importJson_ok_shape (sd : Serde) (now : Nat) (fs : List Bool)
    (s : Store) (uid : Nat) (data : ByteData) (fid : Option Nat) (md : Bool)
    (deck : ExportedDeck) (s' : Store) (r : ImportResult)
    (hwf : ∀ c ∈ s.cards, c.id < s.nextId)
    (hdec : sd.jsonDecode data = .ok deck)
    (h : import_from_json sd now fs s uid data fid md = .ok (s', r)) :
    r.success = true ∧
    ∃ nd nc, s'.decks = s.decks ++ nd ∧ s'.cards = s.cards ++ nc ∧
      nc.map (fun c => (c.front, c.back)) =
        deck.cards.map (fun c => (c.front, c.back)) ∧
      ∀ idk ∈ r.imported_decks, ∃ dk ∈ s'.decks,
        dk.id = idk.id ∧ dk.title = idk.title := by
  simp only [import_from_json, importJsonFinish, hdec] at h
  cases hfind : s.findDeckByOwnerTitle uid deck.title with
  | some ex =>
    rw [hfind] at h
    by_cases hm : md
    · subst hm
      simp only [eq_self_iff_true, not_true, if_false] at h
      cases hrec : insertJsonCards now ex.id deck.cards 0 s fs with
      | error e => rw [hrec] at h; simp at h
      | ok t =>
        obtain ⟨s2, fs2, n⟩ := t
        rw [hrec] at h
        simp only [Except.ok.injEq, Prod.mk.injEq] at h
        obtain ⟨h1, h2⟩ := h
        obtain ⟨g1, g2, _, _⟩ := insertJsonCards_ok _ _ _ _ _ _ _ _ _ hwf hrec
        subst h1
        subst h2
        refine ⟨rfl, [], jsonRows now ex.id s.nextId 0 deck.cards,
          by rw [g1]; simp, g2, jsonRows_payload _ _ _ _ _, ?_⟩
        intro idk hidk
        simp only [List.mem_singleton] at hidk
        subst hidk
        have hmem : ex ∈ s.decks := List.mem_of_find?_eq_some hfind
        have hpred := List.find?_some hfind
        simp only [Bool.and_eq_true, decide_eq_true_eq] at hpred
        refine ⟨ex, by rw [g1]; exact hmem, rfl, hpred.2⟩
    · simp only [hm] at h
      simp at h
  | none =>
    rw [hfind] at h
    by_cases hb : (popFail fs).1
    · simp [hb] at h
    · simp only [hb, if_false, Bool.false_eq_true] at h
      cases hrec : insertJsonCards now (s.freshUuid.1) deck.cards 0
          ((s.freshUuid.2).insertDeck ⟨s.freshUuid.1, uid, fid, deck.title,
            deck.description, false, now, now⟩) (popFail fs).2 with
      | error e => rw [hrec] at h; simp at h
      | ok t =>
        obtain ⟨s2, fs2, n⟩ := t
        rw [hrec] at h
        simp only [Except.ok.injEq, Prod.mk.injEq] at h
        obtain ⟨h1, h2⟩ := h
        have hwf2 : ∀ x ∈ ((s.freshUuid.2).insertDeck ⟨s.freshUuid.1, uid,
            fid, deck.title, deck.description, false, now, now⟩).cards,
            x.id < ((s.freshUuid.2).insertDeck ⟨s.freshUuid.1, uid, fid,
              deck.title, deck.description, false, now, now⟩).nextId := by
          intro x hx
          simp only [Store.insertDeck_cards, Store.freshUuid_cards] at hx
          simp only [Store.insertDeck_nextId, Store.freshUuid_nextId]
          exact Nat.lt_succ_of_lt (hwf x hx)
        obtain ⟨g1, g2, _, _⟩ := insertJsonCards_ok _ _ _ _ _ _ _ _ _ hwf2 hrec
        subst h1
        subst h2
        refine ⟨rfl,
          [⟨s.nextId, uid, fid, deck.title, deck.description, false,
            now, now⟩],
          jsonRows now s.freshUuid.1
            ((s.freshUuid.2).insertDeck ⟨s.freshUuid.1, uid, fid, deck.title,
              deck.description, false, now, now⟩).nextId 0 deck.cards,
          by rw [g1]; simp, by simpa using g2,
          jsonRows_payload _ _ _ _ _, ?_⟩
        intro idk hidk
        simp only [List.mem_singleton] at hidk
        subst hidk
        refine ⟨⟨s.nextId, uid, fid, deck.title, deck.description, false,
          now, now⟩, ?_, rfl, rfl⟩
        rw [g1]
        simp

/-- Shape of a successful Markdown import. -/
theorem importMarkdown_ok_shape (now : Nat) (fs : List Bool) (s : Store)
    (uid : Nat) (content : Str) (fid : Option Nat) (md : Bool)
    (s' : Store) (r : ImportResult)
    (h : import_from_markdown now fs s uid (.utf8 content) fid md =
      .ok (s', r)) :
    r.success = true ∧
    ∃ nd nc, s'.decks = s.decks ++ nd ∧ s'.cards = s.cards ++ nc ∧
      nc.map (fun c => (c.front, c.back)) = (mdParse content).2 ∧
      ∀ idk ∈ r.imported_decks, ∃ dk ∈ s'.decks,
        dk.id = idk.id ∧ dk.title = idk.title := by
  simp only [import_from_markdown] at h
  by_cases hb : (popFail fs).1
  · simp [hb] at h
  · simp only [hb, if_false, Bool.false_eq_true] at h
    cases hrec : insertPlainCards now (s.freshUuid.1) (mdParse content).2 0
        ((s.freshUuid.2).insertDeck ⟨s.freshUuid.1, uid, fid,
          (mdParse content).1, none, false, now, now⟩) (popFail fs).2 with
    | error e => rw [hrec] at h; simp at h
    | ok t =>
      obtain ⟨s2, fs2⟩ := t
      rw [hrec] at h
      simp only [Except.ok.injEq, Prod.mk.injEq] at h
      obtain ⟨h1, h2⟩ := h
      obtain ⟨g1, g2, _⟩ := insertPlainCards_ok _ _ _ _ _ _ _ _ hrec
      subst h1
      subst h2
      refine ⟨rfl,
        [⟨s.nextId, uid, fid, (mdParse content).1, none, false, now, now⟩],
        plainRows now s.freshUuid.1
          ((s.freshUuid.2).insertDeck ⟨s.freshUuid.1, uid, fid,
            (mdParse content).1, none, false, now, now⟩).nextId 0
          (mdParse content).2,
        by rw [g1]; simp, by simpa using g2, plainRows_payload _ _ _ _ _, ?_⟩
      intro idk hidk
      simp only [List.mem_singleton] at hidk
      subst hidk
      refine ⟨⟨s.nextId, uid, fid, (mdParse content).1, none, false,
        now, now⟩, ?_, rfl, rfl⟩
      rw [g1]
      simp

/-- Shape of a successful CSV import. -/
theorem importCsv_ok_shape (now : Nat) (fs : List Bool) (s : Store)
    (uid : Nat) (data : ByteData) (fid : Option Nat) (md : Bool)
    (cards : List CsvCard) (s' : Store) (r : ImportResult)
    (hcol : csvCollectCards (csvRecordResults data) = .ok cards)
    (h : import_from_csv now fs s uid data fid md = .ok (s', r)) :
    r.success = true ∧
    ∃ nd nc, s'.decks = s.decks ++ nd ∧ s'.cards = s.cards ++ nc ∧
      nc.map (fun c => (c.front, c.back)) =
        cards.map (fun c => (c.front, c.back)) ∧
      ∀ idk ∈ r.imported_decks, ∃ dk ∈ s'.decks,
        dk.id = idk.id ∧ dk.title = idk.title := by
  simp only [import_from_csv, hcol] at h
  by_cases hb : (popFail fs).1
  · simp [hb] at h
  · simp only [hb, if_false, Bool.false_eq_true] at h
    cases hrec : insertPlainCards now (s.freshUuid.1)
        (cards.map (fun c => (c.front, c.back))) 0
        ((s.freshUuid.2).insertDeck ⟨s.freshUuid.1, uid, fid,
          csvDeckTitle now, some (str "Imported from CSV"), false,
          now, now⟩) (popFail fs).2 with
    | error e => rw [hrec] at h; simp at h
    | ok t =>
      obtain ⟨s2, fs2⟩ := t
      rw [hrec] at h
      simp only [Except.ok.injEq, Prod.mk.injEq] at h
      obtain ⟨h1, h2⟩ := h
      obtain ⟨g1, g2, _⟩ := insertPlainCards_ok _ _ _ _ _ _ _ _ hrec
      subst h1
      subst h2
      refine ⟨rfl,
        [⟨s.nextId, uid, fid, csvDeckTitle now,
          some (str "Imported from CSV"), false, now, now⟩],
        plainRows now s.freshUuid.1
          ((s.freshUuid.2).insertDeck ⟨s.freshUuid.1, uid, fid,
            csvDeckTitle now, some (str "Imported from CSV"), false,
            now, now⟩).nextId 0 (cards.map (fun c => (c.front, c.back))),
        by rw [g1]; simp, by simpa using g2, plainRows_payload _ _ _ _ _, ?_⟩
      intro idk hidk
      simp only [List.mem_singleton] at hidk
      subst hidk
      refine ⟨⟨s.nextId, uid, fid, csvDeckTitle now,
        some (str "Imported from CSV"), false, now, now⟩, ?_, rfl, rfl⟩
      rw [g1]
      simp

/-- Shape of a successful Anki import. -/
theorem importAnki_ok_shape (sd : Serde) (now : Nat) (fs : List Bool)
    (s : Store) (uid : Nat) (data : ByteData) (fid : Option Nat) (md : Bool)
    (adeck : AnkiDeck) (s' : Store) (r : ImportResult)
    (hdec : sd.ankiDecode data = .ok adeck)
    (h : import_from_anki sd now fs s uid data fid md = .ok (s', r)) :
    r.success = true ∧
    ∃ nd nc, s'.decks = s.decks ++ nd ∧ s'.cards = s.cards ++ nc ∧
      nc.map (fun c => (c.front, c.back)) =
        (adeck.notes.filter (fun nt => nt.fields.length ≥ 2)).map
          (fun nt => (nt.fields.getD 0 [], nt.fields.getD 1 [])) ∧
      ∀ idk ∈ r.imported_decks, ∃ dk ∈ s'.decks,
        dk.id = idk.id ∧ dk.title = idk.title := by
  simp only [import_from_anki, hdec] at h
  by_cases hb : (popFail fs).1
  · simp [hb] at h
  · simp only [hb, if_false, Bool.false_eq_true] at h
    cases hrec : insertAnkiNotes now (s.freshUuid.1) adeck.notes 0
        ((s.freshUuid.2).insertDeck ⟨s.freshUuid.1, uid, fid, adeck.name,
          some adeck.desc, false, now, now⟩) (popFail fs).2 with
    | error e => rw [hrec] at h; simp at h
    | ok t =>
      obtain ⟨s2, fs2⟩ := t
      rw [hrec] at h
      simp only [Except.ok.injEq, Prod.mk.injEq] at h
      obtain ⟨h1, h2⟩ := h
      obtain ⟨g1, g2⟩ := insertAnkiNotes_ok _ _ _ _ _ _ _ _ hrec
      subst h1
      subst h2
      refine ⟨rfl,
        [⟨s.nextId, uid, fid, adeck.name, some adeck.desc, false, now, now⟩],
        ankiRows now s.freshUuid.1
          ((s.freshUuid.2).insertDeck ⟨s.freshUuid.1, uid, fid, adeck.name,
            some adeck.desc, false, now, now⟩).nextId 0 adeck.notes,
        by rw [g1]; simp, by simpa using g2, ankiRows_payload _ _ _ _ _, ?_⟩
      intro idk hidk
      simp only [List.mem_singleton] at hidk
      subst hidk
      refine ⟨⟨s.nextId, uid, fid, adeck.name, some adeck.desc, false,
        now, now⟩, ?_, rfl, rfl⟩
      rw [g1]
      simp

/-- Dispatcher-level shape: an `import_decks` call that returns `Ok` either
reports `success = false` having written nothing (failed validation), or
reports `success = true` having appended exactly the decoded card payloads
and the reported deck. -/
theorem import_decks_ok_shape (sd : Serde) (now : Nat) (fs : List Bool)
    (s : Store) (uid : Nat) (data : ByteData) (format : ImportFormat)
    (fid : Option Nat) (md : Bool) (s2 : Store) (r0 : ImportResult)
    (hwf : s.WF)
    (himp : import_decks sd now fs s uid data format fid md = .ok (s2, r0)) :
    (r0.success = false → s2 = s) ∧
    (r0.success = true →
      ∃ nd nc, s2.decks = s.decks ++ nd ∧ s2.cards = s.cards ++ nc ∧
        nc.map (fun c => (c.front, c.back)) =
          decodedCardPayloads sd data format ∧
        ∀ idk ∈ r0.imported_decks, ∃ dk ∈ s2.decks,
          dk.id = idk.id ∧ dk.title = idk.title) := by
  by_cases hval : (validate_import sd data format).is_valid
  · simp only [import_decks, hval, Bool.not_true, Bool.false_eq_true,
      if_false] at himp
    cases format with
    | json =>
      cases hdec : sd.jsonDecode data with
      | error e => simp only [import_from_json, hdec] at himp; simp at himp
      | ok deck =>
        obtain ⟨hsucc, shape⟩ := importJson_ok_shape sd now fs s uid data fid
          md deck s2 r0 hwf.1 hdec himp
        refine ⟨fun hf => by rw [hsucc] at hf; simp at hf, fun _ => ?_⟩
        simpa [decodedCardPayloads, hdec] using shape
    | csv =>
      cases hcol : csvCollectCards (csvRecordResults data) with
      | error e => simp only [import_from_csv, hcol] at himp; simp at himp
      | ok cards =>
        obtain ⟨hsucc, shape⟩ := importCsv_ok_shape now fs s uid data fid md
          cards s2 r0 hcol himp
        refine ⟨fun hf => by rw [hsucc] at hf; simp at hf, fun _ => ?_⟩
        simpa [decodedCardPayloads, hcol] using shape
    | anki =>
      cases hdec : sd.ankiDecode data with
      | error e => simp only [import_from_anki, hdec] at himp; simp at himp
      | ok adeck =>
        obtain ⟨hsucc, shape⟩ := importAnki_ok_shape sd now fs s uid data fid
          md adeck s2 r0 hdec himp
        refine ⟨fun hf => by rw [hsucc] at hf; simp at hf, fun _ => ?_⟩
        simpa [decodedCardPayloads, hdec] using shape
    | markdown =>
      cases hdata : data with
      | binary bs =>
        rw [hdata] at himp
        simp [import_from_markdown] at himp
      | utf8 content =>
        rw [hdata] at himp
        obtain ⟨hsucc, shape⟩ := importMarkdown_ok_shape now fs s uid content
          fid md s2 r0 himp
        refine ⟨fun hf => by rw [hsucc] at hf; simp at hf, fun _ => ?_⟩
        simpa [decodedCardPayloads] using shape
  · have hval2 : (validate_import sd data format).is_valid = false := by
      cases hv : (validate_import sd data format).is_valid
      · rfl
      · exact absurd hv hval
    simp only [import_decks, hval2, Bool.false_eq_true, not_false_iff,
      if_true, Except.ok.injEq, Prod.mk.injEq] at himp
    obtain ⟨h1, h2⟩ := himp
    refine ⟨fun _ => h1.symm, fun hsucc => ?_⟩
    rw [← h2] at hsucc
    simp at hsucc

/-- **C1**: every import call commits its storage writes as one atomic unit.
If any step fails — the decode, the duplicate check, the deck insert or any
card insert (storage write failures are injected by the schedule `fs`) — the
transaction is dropped and the caller's store is exactly the input store: no
deck and no card from the call persists.  A call that returns without
success (failed validation) also writes nothing.  If the call succeeds, all
the writes are visible: the final store appends exactly one batch holding
every decoded card payload, and the reported deck is persisted. -/
theorem import_atomic_all_or_nothing (sd : Serde) (now : Nat) (fs : List Bool)
    (s : Store) (uid : Nat) (data : ByteData) (format : ImportFormat)
    (fid : Option Nat) (md : Bool) (hwf : s.WF) :
    (∀ e, (runImportDecks sd now fs s uid data format fid md).2 = .error e →
      (runImportDecks sd now fs s uid data format fid md).1 = s) ∧
    (∀ r, (runImportDecks sd now fs s uid data format fid md).2 = .ok r →
      r.success = false →
      (runImportDecks sd now fs s uid data format fid md).1 = s) ∧
    (∀ r, (runImportDecks sd now fs s uid data format fid md).2 = .ok r →
      r.success = true →
      ∃ nd nc,
        (runImportDecks sd now fs s uid data format fid md).1.decks =
          s.decks ++ nd ∧
        (runImportDecks sd now fs s uid data format fid md).1.cards =
          s.cards ++ nc ∧
        nc.map (fun c => (c.front, c.back)) =
          decodedCardPayloads sd data format ∧
        ∀ idk ∈ r.imported_decks,
          ∃ dk ∈ (runImportDecks sd now fs s uid data format fid md).1.decks,
            dk.id = idk.id ∧ dk.title = idk.title) := by
  cases himp : import_decks sd now fs s uid data format fid md with
  | error e =>
    refine ⟨fun _ _ => ?_, fun r hr => ?_, fun r hr => ?_⟩
    · simp [runImportDecks, himp]
    · simp [runImportDecks, himp] at hr
    · simp [runImportDecks, himp] at hr
  | ok t =>
    obtain ⟨s2, r0⟩ := t
    obtain ⟨hfail, hok⟩ := import_decks_ok_shape sd now fs s uid data format
      fid md s2 r0 hwf himp
    refine ⟨fun e he => ?_, fun r hr hf => ?_, fun r hr hsucc => ?_⟩
    · simp [runImportDecks, himp] at he
    · simp only [runImportDecks, himp] at hr ⊢
      simp only [Except.ok.injEq] at hr
      subst hr
      exact hfail hf
    · simp only [runImportDecks, himp] at hr ⊢
      simp only [Except.ok.injEq] at hr
      subst hr
      exact hok hsucc

/-- Witness for C1: forcing the first card insert of a JSON import to fail
(schedule `[false, true]`: the deck insert succeeds, the card insert fails)
rolls the whole call back — the store is unchanged, with zero decks and zero
cards from the call. -/
theorem import_atomic_all_or_nothing_witness :
    (runImportDecks testSerde 0 [false, true] store0 7 (.utf8 (str "J"))
      .json none false).2 = .error .Database ∧
    (runImportDecks testSerde 0 [false, true] store0 7 (.utf8 (str "J"))
      .json none false).1 = store0 := by
  refine ⟨by rfl, ?_⟩
  exact (import_atomic_all_or_nothing testSerde 0 [false, true] store0 7
    (.utf8 (str "J")) .json none false
    ⟨by intro c hc; simp [store0] at hc,
     by intro d hd; simp [store0] at hd,
     by intro c hc; simp [store0] at hc⟩).1 .Database (by rfl)

/-! ## A section-based specification of the Markdown card grammar

`mdSpecCards` restates the spec's description of the Markdown decode: each
`## Card` heading starts a new card; the lines up to the next heading (or
end of input) form that card's section; within a section the last
`**Front:**` line populates the front and the last `**Back:**` line the back
(either order, last-one-wins), each defaulting to the empty string. -/

/-- A line that starts a new card. -/
def mdIsHeading (l : Str) : Bool := (str "## Card").isPrefixOf l

/-- The card sections: for each heading, the following lines up to the next
heading or end of input. -/
theorem length_dropWhile_le' {α : Type} (p : α → Bool) (l : List α) :
    (l.dropWhile p).length ≤ l.length := by
  induction l with
  | nil => simp [List.dropWhile]
  | cons a l ih =>
    simp only [List.dropWhile]
    split
    · simp only [List.length_cons]
      omega
    · simp

def mdNotHeading (l : Str) : Bool := ! mdIsHeading l

def mdSections : List Str → List (List Str)
  | [] => []
  | l :: ls =>
    if mdIsHeading l then
      (ls.takeWhile mdNotHeading) :: mdSections (ls.dropWhile mdNotHeading)
    else mdSections ls
termination_by ls => ls.length
decreasing_by
  all_goals simp only [List.length_cons]
  · exact Nat.lt_succ_of_le (length_dropWhile_le' _ _)
  · exact Nat.lt_succ_self _

/-- Value carried by the last line of a section matching the marker (with the
marker's byte length dropped and the remainder trimmed), or the default. -/
def mdLastMarkedOr (dflt : Str) (marker : Str) (k : Nat) (sec : List Str) :
    Str :=
  match (sec.filter (fun l => marker.isPrefixOf l)).getLast? with
  | some l => trimStr (l.drop k)
  | none => dflt

/-- Update a card's front/back from a section, last-one-wins per marker. -/
def mdSecUpd (c : Str × Str) (sec : List Str) : Str × Str :=
  (mdLastMarkedOr c.1 (str "**Front:**") 10 sec,
   mdLastMarkedOr c.2 (str "**Back:**") 9 sec)

/-- The cards of a Markdown document according to the spec's section
description: one card per `## Card` heading, fields from the section's last
`**Front:**`/`**Back:**` lines, empty strings when absent. -/
def mdSpecCards (lines : List Str) : List (Str × Str) :=
  (mdSections lines).map (mdSecUpd ([], []))

/-- The cards collected in a parser state, the open card included. -/
def mdCollect (st : MdState) : List (Str × Str) :=
  st.cards ++ (match st.cur with
               | some c => [c]
               | none => [])

theorem isPrefixOf_cons₂ (a b : Char) (as bs : Str) :
    (a :: as).isPrefixOf (b :: bs) = (a == b && as.isPrefixOf bs) := rfl

theorem mdLastMarkedOr_cons_match (d : Str) (marker : Str) (k : Nat)
    (l : Str) (sec : List Str) (h : marker.isPrefixOf l = true) :
    mdLastMarkedOr d marker k (l :: sec) =
      mdLastMarkedOr (trimStr (l.drop k)) marker k sec := by
  simp only [mdLastMarkedOr, List.filter_cons, h, if_true]
  cases hf : (sec.filter (fun x => marker.isPrefixOf x)) with
  | nil => simp
  | cons y ys =>
    simp only [List.getLast?_cons_cons]
    cases hg : (y :: ys).getLast? with
    | none => simp [List.getLast?] at hg
    | some z => simp [hg]

theorem mdLastMarkedOr_cons_nomatch (d : Str) (marker : Str) (k : Nat)
    (l : Str) (sec : List Str) (h : marker.isPrefixOf l = false) :
    mdLastMarkedOr d marker k (l :: sec) = mdLastMarkedOr d marker k sec := by
  simp only [mdLastMarkedOr, List.filter_cons, h]
  simp

theorem h1_not_heading (l : Str) (h : (str "# ").isPrefixOf l = true) :
    mdIsHeading l = false := by
  obtain ⟨t, rfl⟩ := List.isPrefixOf_iff_prefix.mp h
  rfl

theorem heading_not_h1 (l : Str) (h : mdIsHeading l = true) :
    (str "# ").isPrefixOf l = false := by
  obtain ⟨t, rfl⟩ := List.isPrefixOf_iff_prefix.mp h
  rfl

theorem front_not_h1 (l : Str) (h : (str "**Front:**").isPrefixOf l = true) :
    (str "# ").isPrefixOf l = false := by
  obtain ⟨t, rfl⟩ := List.isPrefixOf_iff_prefix.mp h
  rfl

theorem front_not_heading (l : Str)
    (h : (str "**Front:**").isPrefixOf l = true) : mdIsHeading l = false := by
  obtain ⟨t, rfl⟩ := List.isPrefixOf_iff_prefix.mp h
  rfl

theorem front_not_back (l : Str)
    (h : (str "**Front:**").isPrefixOf l = true) :
    (str "**Back:**").isPrefixOf l = false := by
  obtain ⟨t, rfl⟩ := List.isPrefixOf_iff_prefix.mp h
  rfl

theorem back_not_h1 (l : Str) (h : (str "**Back:**").isPrefixOf l = true) :
    (str "# ").isPrefixOf l = false := by
  obtain ⟨t, rfl⟩ := List.isPrefixOf_iff_prefix.mp h
  rfl

theorem back_not_heading (l : Str)
    (h : (str "**Back:**").isPrefixOf l = true) : mdIsHeading l = false := by
  obtain ⟨t, rfl⟩ := List.isPrefixOf_iff_prefix.mp h
  rfl

theorem mdFold_some (ls : List Str) :
    ∀ (t : Str) (c : Str × Str) (acc : List (Str × Str)),
      mdCollect (ls.foldl mdStep ⟨t, some c, acc⟩) =
        acc ++ mdSecUpd c (ls.takeWhile mdNotHeading) ::
          mdSpecCards (ls.dropWhile mdNotHeading) := by
  induction ls with
  | nil =>
    intro t c acc
    simp [mdCollect, mdSecUpd, mdLastMarkedOr, mdSpecCards, mdSections]
  | cons l ls ih =>
    intro t c acc
    rw [List.foldl_cons]
    by_cases hh : mdIsHeading l
    · have h1 : (str "# ").isPrefixOf l = false := heading_not_h1 l hh
      have hh2 : (str "## Card").isPrefixOf l = true := hh
      have hstep : mdStep ⟨t, some c, acc⟩ l = ⟨t, some ([], []), acc ++ [c]⟩ := by
        simp [mdStep, h1, hh2]
      rw [hstep, ih]
      have htake : (l :: ls).takeWhile mdNotHeading = [] := by
        simp [List.takeWhile_cons, mdNotHeading, hh]
      have hdrop : (l :: ls).dropWhile mdNotHeading = l :: ls := by
        simp [List.dropWhile_cons, mdNotHeading, hh]
      rw [htake, hdrop]
      have hspec : mdSpecCards (l :: ls) =
          mdSecUpd ([], []) (ls.takeWhile mdNotHeading) ::
            mdSpecCards (ls.dropWhile mdNotHeading) := by
        simp [mdSpecCards, mdSections, hh]
      rw [hspec]
      have hc : mdSecUpd c [] = c := by
        simp [mdSecUpd, mdLastMarkedOr]
      rw [hc]
      simp
    · have hh2 : (str "## Card").isPrefixOf l = false :=
        Bool.eq_false_iff.mpr hh
      have hnh : mdNotHeading l = true := by
        simp [mdNotHeading, mdIsHeading, hh2]
      have htake : (l :: ls).takeWhile mdNotHeading =
          l :: ls.takeWhile mdNotHeading := by
        simp [List.takeWhile_cons, hnh]
      have hdrop : (l :: ls).dropWhile mdNotHeading =
          ls.dropWhile mdNotHeading := by
        simp [List.dropWhile_cons, hnh]
      rw [htake, hdrop]
      by_cases hf : (str "**Front:**").isPrefixOf l
      · have h1 : (str "# ").isPrefixOf l = false := front_not_h1 l hf
        have hbk : (str "**Back:**").isPrefixOf l = false := front_not_back l hf
        have hstep : mdStep ⟨t, some c, acc⟩ l =
            ⟨t, some (trimStr (l.drop 10), c.2), acc⟩ := by
          simp [mdStep, h1, hh2, hf]
        rw [hstep, ih]
        simp only [mdSecUpd, mdLastMarkedOr_cons_match _ _ _ _ _ hf,
          mdLastMarkedOr_cons_nomatch _ _ _ _ _ hbk]
      · have hf2 : (str "**Front:**").isPrefixOf l = false :=
          Bool.eq_false_iff.mpr hf
        by_cases hbk : (str "**Back:**").isPrefixOf l
        · have h1 : (str "# ").isPrefixOf l = false := back_not_h1 l hbk
          have hstep : mdStep ⟨t, some c, acc⟩ l =
              ⟨t, some (c.1, trimStr (l.drop 9)), acc⟩ := by
            simp [mdStep, h1, hh2, hf2, hbk]
          rw [hstep, ih]
          simp only [mdSecUpd, mdLastMarkedOr_cons_match _ _ _ _ _ hbk,
            mdLastMarkedOr_cons_nomatch _ _ _ _ _ hf2]
        · have hbk2 : (str "**Back:**").isPrefixOf l = false :=
            Bool.eq_false_iff.mpr hbk
          by_cases h1 : (str "# ").isPrefixOf l
          · have hstep : mdStep ⟨t, some c, acc⟩ l =
                ⟨trimStr (l.drop 2), some c, acc⟩ := by
              simp [mdStep, h1]
            rw [hstep, ih]
            simp only [mdSecUpd, mdLastMarkedOr_cons_nomatch _ _ _ _ _ hf2,
              mdLastMarkedOr_cons_nomatch _ _ _ _ _ hbk2]
          · have h12 : (str "# ").isPrefixOf l = false :=
              Bool.eq_false_iff.mpr h1
            have hstep : mdStep ⟨t, some c, acc⟩ l = ⟨t, some c, acc⟩ := by
              simp [mdStep, h12, hh2, hf2, hbk2]
            rw [hstep, ih]
            simp only [mdSecUpd, mdLastMarkedOr_cons_nomatch _ _ _ _ _ hf2,
              mdLastMarkedOr_cons_nomatch _ _ _ _ _ hbk2]

theorem mdFold_none (ls : List Str) :
    ∀ (t : Str) (acc : List (Str × Str)),
      mdCollect (ls.foldl mdStep ⟨t, none, acc⟩) = acc ++ mdSpecCards ls := by
  induction ls with
  | nil =>
    intro t acc
    simp [mdCollect, mdSpecCards, mdSections]
  | cons l ls ih =>
    intro t acc
    rw [List.foldl_cons]
    by_cases hh : mdIsHeading l
    · have h1 : (str "# ").isPrefixOf l = false := heading_not_h1 l hh
      have hh2 : (str "## Card").isPrefixOf l = true := hh
      have hstep : mdStep ⟨t, none, acc⟩ l = ⟨t, some ([], []), acc⟩ := by
        simp [mdStep, h1, hh2]
      rw [hstep, mdFold_some]
      simp [mdSpecCards, mdSections, hh]
    · have hh2 : (str "## Card").isPrefixOf l = false :=
        Bool.eq_false_iff.mpr hh
      have hspec : mdSpecCards (l :: ls) = mdSpecCards ls := by
        simp [mdSpecCards, mdSections, hh]
      rw [hspec]
      by_cases h1 : (str "# ").isPrefixOf l
      · have hstep : mdStep ⟨t, none, acc⟩ l =
            ⟨trimStr (l.drop 2), none, acc⟩ := by
          simp [mdStep, h1]
        rw [hstep, ih]
      · have h12 : (str "# ").isPrefixOf l = false :=
          Bool.eq_false_iff.mpr h1
        by_cases hf : (str "**Front:**").isPrefixOf l
        · have hstep : mdStep ⟨t, none, acc⟩ l = ⟨t, none, acc⟩ := by
            simp [mdStep, h12, hh2, hf]
          rw [hstep, ih]
        · have hf2 : (str "**Front:**").isPrefixOf l = false :=
            Bool.eq_false_iff.mpr hf
          by_cases hbk : (str "**Back:**").isPrefixOf l
          · have hstep : mdStep ⟨t, none, acc⟩ l = ⟨t, none, acc⟩ := by
              simp [mdStep, h12, hh2, hf2, hbk]
            rw [hstep, ih]
          · have hbk2 : (str "**Back:**").isPrefixOf l = false :=
              Bool.eq_false_iff.mpr hbk
            have hstep : mdStep ⟨t, none, acc⟩ l = ⟨t, none, acc⟩ := by
              simp [mdStep, h12, hh2, hf2, hbk2]
            rw [hstep, ih]

/-- **C9**: the Markdown parsing phase realizes exactly the section grammar
of the claim — each `## Card` heading starts a new card, the card's front
and back come from the section's last `**Front:**`/`**Back:**` lines (in
either order, last-one-wins), a card is finalized at the next heading or end
of input, and a section with only a `**Front:**` line yields a card with an
empty back string and no error, as the concrete instance shows. -/
theorem markdown_parse_section_spec :
    (∀ content : Str, (mdParse content).2 = mdSpecCards (splitLines content)) ∧
    (mdParse (str "# T\n## Card 1\n**Front:** X")).2 = [(str "X", [])] := by
  constructor
  · intro content
    have : (mdParseLines (splitLines content)).2 =
        mdCollect ((splitLines content).foldl mdStep
          ⟨str "Imported from Markdown", none, []⟩) := rfl
    rw [mdParse, this, mdFold_none]
    simp
  · rfl

/-! ## Round trip of the Markdown codec -/

/-- Newline-terminated concatenation of lines. -/
def joinNL (ls : List Str) : Str := (ls.map (fun l => l ++ ['\n'])).flatten

theorem splitLinesAux_line (l : Str) :
    ∀ (acc rest : Str), '\n' ∉ l →
      splitLinesAux (l ++ '\n' :: rest) acc =
        stripCRrev (l.reverse ++ acc) :: splitLinesAux rest [] := by
  induction l with
  | nil =>
    intro acc rest _
    simp [splitLinesAux]
  | cons c l ih =>
    intro acc rest hmem
    have hc : ¬ c = '\n' := by
      intro hc
      exact hmem (by rw [hc]; exact List.mem_cons_self _ _)
    simp only [List.cons_append, splitLinesAux, hc, if_false, List.append_eq]
    rw [ih (c :: acc) rest (fun hm => hmem (List.mem_cons_of_mem _ hm))]
    simp

theorem stripCRrev_reverse (l : Str) (h : l.getLast? ≠ some '\r') :
    stripCRrev l.reverse = l := by
  cases hrev : l.reverse with
  | nil =>
    have hl : l = [] := by simpa using congrArg List.reverse hrev
    rw [hl]
    rfl
  | cons c t =>
    by_cases hc : c = '\r'
    · subst hc
      exfalso
      apply h
      have hl : l = ('\r' :: t).reverse := by rw [← hrev]; simp
      rw [hl]
      simp
    · have hm : stripCRrev (c :: t) = (c :: t).reverse := by
        rw [stripCRrev, if_neg]
        simp [hc]
      rw [hm, ← hrev]
      simp

theorem splitLines_joinNL (ls : List Str)
    (h : ∀ l ∈ ls, '\n' ∉ l ∧ l.getLast? ≠ some '\r') :
    splitLines (joinNL ls) = ls := by
  induction ls with
  | nil => rfl
  | cons l ls ih =>
    have hl := h l (List.mem_cons_self _ _)
    have hjoin : joinNL (l :: ls) = l ++ '\n' :: joinNL ls := by
      simp [joinNL]
    rw [splitLines, hjoin, splitLinesAux_line l [] (joinNL ls) hl.1]
    rw [List.append_nil, stripCRrev_reverse l hl.2]
    rw [← splitLines, ih (fun x hx => h x (List.mem_cons_of_mem _ hx))]

/-- A text that survives the Markdown codec unchanged: a single line (no
newline) with no leading or trailing Unicode whitespace. -/
def cleanLine (f : Str) : Bool :=
  ! f.contains '\n' &&
  f.head?.all (fun c => ! isWhiteSpace c) &&
  f.getLast?.all (fun c => ! isWhiteSpace c)

theorem cleanLine_not_mem (f : Str) (h : cleanLine f = true) : '\n' ∉ f := by
  simp only [cleanLine, Bool.and_eq_true, Bool.not_eq_true'] at h
  intro hm
  have hc : f.contains '\n' = true := by
    simpa [List.contains] using List.elem_iff.mpr hm
  rw [h.1.1] at hc
  exact Bool.false_ne_true hc

theorem cleanLine_head (f : Str) (h : cleanLine f = true) :
    ∀ c, f.head? = some c → isWhiteSpace c = false := by
  intro c hc
  simp only [cleanLine, Bool.and_eq_true] at h
  have := h.1.2
  rw [hc] at this
  simpa using this

theorem cleanLine_last (f : Str) (h : cleanLine f = true) :
    ∀ c, f.getLast? = some c → isWhiteSpace c = false := by
  intro c hc
  simp only [cleanLine, Bool.and_eq_true] at h
  have := h.2
  rw [hc] at this
  simpa using this

theorem cleanLine_last_ne_cr (f : Str) (h : cleanLine f = true) :
    f.getLast? ≠ some '\r' := by
  intro hc
  have := cleanLine_last f h '\r' hc
  exact absurd this (by decide)

theorem dropWhile_ws_head (f : Str)
    (hh : ∀ c, f.head? = some c → isWhiteSpace c = false) :
    f.dropWhile isWhiteSpace = f := by
  cases f with
  | nil => rfl
  | cons c rest =>
    have := hh c rfl
    simp [List.dropWhile_cons, this]

theorem trimStr_clean (f : Str)
    (hh : ∀ c, f.head? = some c → isWhiteSpace c = false)
    (hl : ∀ c, f.getLast? = some c → isWhiteSpace c = false) :
    trimStr f = f := by
  rw [trimStr, dropWhile_ws_head f hh, dropWhile_ws_head f.reverse, List.reverse_reverse]
  intro c hc
  rw [List.head?_reverse] at hc
  exact hl c hc

theorem trimStr_cons_space (f : Str) : trimStr (' ' :: f) = trimStr f := by
  have h : (' ' :: f).dropWhile isWhiteSpace =
      f.dropWhile isWhiteSpace := by
    rw [List.dropWhile_cons,
      if_pos (by decide : isWhiteSpace ' ' = true)]
  rw [trimStr, trimStr, h]

theorem digitChar_not_ws (m : Nat) : isWhiteSpace (Nat.digitChar m) = false := by
  rcases Nat.lt_or_ge m 16 with hm | hm
  · interval_cases m <;> decide
  · unfold Nat.digitChar
    rw [if_neg (show ¬ m = 0 by omega), if_neg (show ¬ m = 1 by omega),
      if_neg (show ¬ m = 2 by omega), if_neg (show ¬ m = 3 by omega),
      if_neg (show ¬ m = 4 by omega), if_neg (show ¬ m = 5 by omega),
      if_neg (show ¬ m = 6 by omega), if_neg (show ¬ m = 7 by omega),
      if_neg (show ¬ m = 8 by omega), if_neg (show ¬ m = 9 by omega),
      if_neg (show ¬ m = 10 by omega), if_neg (show ¬ m = 11 by omega),
      if_neg (show ¬ m = 12 by omega), if_neg (show ¬ m = 13 by omega),
      if_neg (show ¬ m = 14 by omega), if_neg (show ¬ m = 15 by omega)]
    decide

theorem toDigitsCore_not_ws (b : Nat) (f : Nat) :
    ∀ (n : Nat) (acc : List Char),
      (∀ c ∈ acc, isWhiteSpace c = false) →
      ∀ c ∈ Nat.toDigitsCore b f n acc, isWhiteSpace c = false := by
  induction f with
  | zero =>
    intro n acc hacc c hc
    exact hacc c hc
  | succ f ih =>
    intro n acc hacc c hc
    rw [Nat.toDigitsCore] at hc
    by_cases hq : n / b = 0
    · rw [hq] at hc
      simp only [if_true, eq_self_iff_true] at hc
      rcases List.mem_cons.mp hc with hc | hc
      · rw [hc]; exact digitChar_not_ws _
      · exact hacc c hc
    · rw [if_neg hq] at hc
      refine ih (n / b) (Nat.digitChar (n % b) :: acc) ?_ c hc
      intro x hx
      rcases List.mem_cons.mp hx with hx | hx
      · rw [hx]; exact digitChar_not_ws _
      · exact hacc x hx

theorem repr_data_not_ws (n : Nat) :
    ∀ c ∈ (Nat.repr n).data, isWhiteSpace c = false := by
  intro c hc
  have : (Nat.repr n).data = Nat.toDigits 10 n := rfl
  rw [this, Nat.toDigits] at hc
  exact toDigitsCore_not_ws 10 (n + 1) n [] (by intro x hx; simp at hx) c hc

theorem getLast?_append' (xs ys : Str) :
    (xs ++ ys).getLast? =
      match ys.getLast? with
      | some c => some c
      | none => xs.getLast? := by
  cases hys : ys.getLast? with
  | none =>
    have : ys = [] := by
      cases ys with
      | nil => rfl
      | cons y t => simp [List.getLast?_eq_getLast] at hys
    rw [this]
    simp
  | some c =>
    have hne : ys ≠ [] := by
      intro h
      rw [h] at hys
      simp at hys
    rw [List.getLast?_append_of_ne_nil _ hne, hys]

/-- The lines of one exported card block. -/
def mdCardLines (i : Nat) (f b : Str) : List Str :=
  [str "## Card " ++ (Nat.repr (i + 1)).data, [], str "**Front:** " ++ f, [],
   str "**Back:** " ++ b, [], str "---", []]

/-- The lines of all exported card blocks from index `i`. -/
def mdBodyLines : Nat → List (Str × Str) → List Str
  | _, [] => []
  | i, c :: rest => mdCardLines i c.1 c.2 ++ mdBodyLines (i + 1) rest

/-- The lines of a full markdown export without description. -/
def mdEncodeLines (name : Str) (cards : List (Str × Str)) : List Str :=
  (str "# " ++ name) :: str "---" :: [] :: mdBodyLines 0 cards

theorem joinNL_append (xs ys : List Str) :
    joinNL (xs ++ ys) = joinNL xs ++ joinNL ys := by
  simp [joinNL]

theorem mdCardText_eq_joinNL (i : Nat) (f b : Str) :
    mdCardText i f b = joinNL (mdCardLines i f b) := by
  have e1 : str "\n" = ['\n'] := rfl
  have e2 : str "\n**Front:** " = '\n' :: str "**Front:** " := rfl
  have e3 : str "\n**Back:** " = '\n' :: str "**Back:** " := rfl
  have e4 : str "\n---\n\n" = '\n' :: str "---" ++ ['\n', '\n'] := rfl
  simp only [mdCardText, mdCardLines, joinNL, List.map_cons, List.map_nil,
    List.flatten_cons, List.flatten_nil, List.append_nil, List.nil_append,
    List.cons_append, List.append_assoc, e1, e2, e3, e4]

theorem mdCardsText_eq_joinNL (cards : List (Str × Str)) :
    ∀ i, mdCardsText i cards = joinNL (mdBodyLines i cards) := by
  induction cards with
  | nil => intro i; rfl
  | cons c rest ih =>
    intro i
    rw [mdCardsText, mdBodyLines, joinNL_append, ← ih (i + 1),
      mdCardText_eq_joinNL]

theorem mdEncode_eq_joinNL (name : Str) (cards : List (Str × Str)) :
    mdEncode name none cards = joinNL (mdEncodeLines name cards) := by
  have e1 : str "\n" = ['\n'] := rfl
  have e2 : str "---\n\n" = str "---" ++ ['\n', '\n'] := rfl
  simp only [mdEncode, mdEncodeLines, joinNL, List.map_cons, List.map_nil,
    List.flatten_cons, List.flatten_nil, List.append_nil, List.nil_append,
    List.cons_append, List.append_assoc, e1, e2]
  rw [mdCardsText_eq_joinNL cards 0]
  simp only [joinNL, List.append_assoc]

theorem isPrefixOf_append_self (xs ys : Str) :
    xs.isPrefixOf (xs ++ ys) = true := by
  induction xs with
  | nil => cases ys <;> rfl
  | cons a as ih =>
    rw [List.cons_append]
    show (a == a && as.isPrefixOf (as ++ ys)) = true
    simp [ih]

theorem mem_of_getLast?' {α : Type} (l : List α) (c : α)
    (h : l.getLast? = some c) : c ∈ l := by
  induction l with
  | nil => simp at h
  | cons a as ih =>
    cases as with
    | nil =>
      simp only [List.getLast?_singleton, Option.some.injEq] at h
      rw [← h]
      exact List.mem_singleton_self _
    | cons b bs =>
      rw [List.getLast?_cons_cons] at h
      exact List.mem_cons_of_mem _ (ih h)

theorem line_fact_of_append (xs f : Str) (hx : '\n' ∉ xs)
    (hxl : xs.getLast? ≠ some '\r')
    (hfm : '\n' ∉ f)
    (hfl : ∀ c, f.getLast? = some c → isWhiteSpace c = false) :
    '\n' ∉ (xs ++ f) ∧ (xs ++ f).getLast? ≠ some '\r' := by
  constructor
  · intro hm
    rcases List.mem_append.mp hm with h | h
    · exact hx h
    · exact hfm h
  · rw [getLast?_append']
    cases hl : f.getLast? with
    | none => exact hxl
    | some c =>
      intro hco
      simp only [Option.some.injEq] at hco
      have := hfl c hl
      rw [hco] at this
      exact absurd this (by decide)

theorem repr_line_facts (xs : Str) (n : Nat) (hx : '\n' ∉ xs)
    (hxl : xs.getLast? ≠ some '\r') :
    '\n' ∉ (xs ++ (Nat.repr n).data) ∧
    (xs ++ (Nat.repr n).data).getLast? ≠ some '\r' := by
  refine line_fact_of_append xs _ hx hxl ?_ ?_
  · intro hm
    have := repr_data_not_ws n '\n' hm
    exact absurd this (by decide)
  · intro c hc
    exact repr_data_not_ws n c (mem_of_getLast?' _ _ hc)

theorem clean_line_facts (xs : Str) (f : Str) (hx : '\n' ∉ xs)
    (hxl : xs.getLast? ≠ some '\r') (hf : cleanLine f = true) :
    '\n' ∉ (xs ++ f) ∧ (xs ++ f).getLast? ≠ some '\r' :=
  line_fact_of_append xs f hx hxl (cleanLine_not_mem f hf)
    (cleanLine_last f hf)

/-- The seven lines following a card's heading line. -/
def mdSecTail (f b : Str) : List Str :=
  [[], str "**Front:** " ++ f, [], str "**Back:** " ++ b, [], str "---", []]

theorem mdBodyLines_facts (cards : List (Str × Str))
    (hcards : ∀ p ∈ cards, cleanLine p.1 = true ∧ cleanLine p.2 = true) :
    ∀ i, ∀ l ∈ mdBodyLines i cards, '\n' ∉ l ∧ l.getLast? ≠ some '\r' := by
  induction cards with
  | nil => intro i l hl; simp [mdBodyLines] at hl
  | cons c rest ih =>
    intro i l hl
    rw [mdBodyLines] at hl
    rcases List.mem_append.mp hl with hl | hl
    · have hc := hcards c (List.mem_cons_self _ _)
      simp only [mdCardLines, List.mem_cons, List.mem_singleton] at hl
      rcases hl with rfl | rfl | rfl | rfl | rfl | rfl | rfl | rfl | hl
      · exact repr_line_facts (str "## Card ") (i + 1) (by decide) (by decide)
      · exact ⟨by simp, by simp⟩
      · exact clean_line_facts (str "**Front:** ") c.1 (by decide) (by decide)
          hc.1
      · exact ⟨by simp, by simp⟩
      · exact clean_line_facts (str "**Back:** ") c.2 (by decide) (by decide)
          hc.2
      · exact ⟨by simp, by simp⟩
      · exact ⟨by decide, by decide⟩
      · exact ⟨by simp, by simp⟩
      · simp at hl
    · exact ih (fun p hp => hcards p (List.mem_cons_of_mem _ hp)) (i + 1) l hl

theorem mdEncodeLines_facts (name : Str) (cards : List (Str × Str))
    (hname : cleanLine name = true)
    (hcards : ∀ p ∈ cards, cleanLine p.1 = true ∧ cleanLine p.2 = true) :
    ∀ l ∈ mdEncodeLines name cards, '\n' ∉ l ∧ l.getLast? ≠ some '\r' := by
  intro l hl
  rw [mdEncodeLines] at hl
  rcases List.mem_cons.mp hl with rfl | hl
  · exact clean_line_facts (str "# ") name (by decide) (by decide) hname
  rcases List.mem_cons.mp hl with rfl | hl
  · exact ⟨by decide, by decide⟩
  rcases List.mem_cons.mp hl with rfl | hl
  · exact ⟨by simp, by simp⟩
  exact mdBodyLines_facts cards hcards 0 l hl

theorem mdStep_title (st : MdState) (l : Str) :
    (mdStep st l).title =
      if (str "# ").isPrefixOf l then trimStr (l.drop 2) else st.title := by
  by_cases h1 : (str "# ").isPrefixOf l
  · simp [mdStep, h1]
  · have h1f : (str "# ").isPrefixOf l = false := Bool.eq_false_iff.mpr h1
    simp only [mdStep, h1f, Bool.false_eq_true, if_false, h1]
    by_cases h2 : (str "## Card").isPrefixOf l
    · simp [h2]
    · have h2f := Bool.eq_false_iff.mpr h2
      simp only [h2f, Bool.false_eq_true, if_false]
      by_cases h3 : (str "**Front:**").isPrefixOf l
      · simp [h3]
      · have h3f := Bool.eq_false_iff.mpr h3
        simp only [h3f, Bool.false_eq_true, if_false]
        by_cases h4 : (str "**Back:**").isPrefixOf l
        · simp [h4]
        · have h4f := Bool.eq_false_iff.mpr h4
          simp [h4f]

theorem mdFold_title (ls : List Str) : ∀ st : MdState,
    (ls.foldl mdStep st).title = mdLastMarkedOr st.title (str "# ") 2 ls := by
  induction ls with
  | nil => intro st; rfl
  | cons l ls ih =>
    intro st
    rw [List.foldl_cons, ih]
    by_cases h1 : (str "# ").isPrefixOf l
    · rw [mdLastMarkedOr_cons_match _ _ _ _ _ h1]
      congr 1
      rw [mdStep_title, if_pos h1]
    · have h1f := Bool.eq_false_iff.mpr h1
      rw [mdLastMarkedOr_cons_nomatch _ _ _ _ _ h1f]
      congr 1
      rw [mdStep_title, if_neg h1]

theorem mdLastMarkedOr_nomatch_all (d m : Str) (k : Nat) (ls : List Str)
    (h : ∀ l ∈ ls, m.isPrefixOf l = false) :
    mdLastMarkedOr d m k ls = d := by
  induction ls with
  | nil => rfl
  | cons l ls ih =>
    rw [mdLastMarkedOr_cons_nomatch _ _ _ _ _ (h l (List.mem_cons_self _ _))]
    exact ih (fun x hx => h x (List.mem_cons_of_mem _ hx))

theorem body_no_h1 (cards : List (Str × Str)) :
    ∀ i, ∀ l ∈ mdBodyLines i cards, (str "# ").isPrefixOf l = false := by
  induction cards with
  | nil => intro i l hl; simp [mdBodyLines] at hl
  | cons c rest ih =>
    intro i l hl
    rw [mdBodyLines] at hl
    rcases List.mem_append.mp hl with hl | hl
    · simp only [mdCardLines, List.mem_cons, List.mem_singleton] at hl
      rcases hl with rfl | rfl | rfl | rfl | rfl | rfl | rfl | rfl | hl
      · rfl
      · rfl
      · rfl
      · rfl
      · rfl
      · rfl
      · rfl
      · rfl
      · simp at hl
    · exact ih (i + 1) l hl

theorem takeWhile_append_all {α : Type} (p : α → Bool) (xs ys : List α)
    (h : ∀ x ∈ xs, p x = true) :
    (xs ++ ys).takeWhile p = xs ++ ys.takeWhile p := by
  induction xs with
  | nil => simp
  | cons a xs ih =>
    rw [List.cons_append, List.takeWhile_cons,
      if_pos (h a (List.mem_cons_self _ _)), List.cons_append,
      ih (fun x hx => h x (List.mem_cons_of_mem _ hx))]

theorem dropWhile_append_all {α : Type} (p : α → Bool) (xs ys : List α)
    (h : ∀ x ∈ xs, p x = true) :
    (xs ++ ys).dropWhile p = ys.dropWhile p := by
  induction xs with
  | nil => simp
  | cons a xs ih =>
    rw [List.cons_append, List.dropWhile_cons,
      if_pos (h a (List.mem_cons_self _ _)),
      ih (fun x hx => h x (List.mem_cons_of_mem _ hx))]

theorem secTail_not_heading (f b : Str) :
    ∀ l ∈ mdSecTail f b, mdNotHeading l = true := by
  intro l hl
  simp only [mdSecTail, List.mem_cons, List.mem_singleton] at hl
  rcases hl with rfl | rfl | rfl | rfl | rfl | rfl | rfl | hl
  · rfl
  · rfl
  · rfl
  · rfl
  · rfl
  · rfl
  · rfl
  · simp at hl

theorem mdBody_stops (cs : List (Str × Str)) (j : Nat) :
    (mdBodyLines j cs).takeWhile mdNotHeading = [] ∧
    (mdBodyLines j cs).dropWhile mdNotHeading = mdBodyLines j cs := by
  cases cs with
  | nil => exact ⟨rfl, rfl⟩
  | cons c rest =>
    have hhead : mdNotHeading (str "## Card " ++ (Nat.repr (j + 1)).data)
        = false := rfl
    constructor
    · rw [mdBodyLines, mdCardLines, List.cons_append, List.takeWhile_cons,
        if_neg (by rw [hhead]; exact Bool.false_ne_true)]
    · rw [mdBodyLines, mdCardLines, List.cons_append, List.dropWhile_cons,
        if_neg (by rw [hhead]; exact Bool.false_ne_true), ← List.cons_append,
        ← mdCardLines, ← mdBodyLines]

theorem mdSections_body (cards : List (Str × Str)) :
    ∀ i, mdSections (mdBodyLines i cards) =
      cards.map (fun c => mdSecTail c.1 c.2) := by
  induction cards with
  | nil =>
    intro i
    rw [show mdBodyLines i [] = [] from rfl]
    rw [mdSections]
    rfl
  | cons c rest ih =>
    intro i
    have hhead : mdIsHeading (str "## Card " ++ (Nat.repr (i + 1)).data)
        = true := rfl
    rw [mdBodyLines, show mdCardLines i c.1 c.2 =
      (str "## Card " ++ (Nat.repr (i + 1)).data) :: mdSecTail c.1 c.2
      from rfl, List.cons_append]
    rw [mdSections, if_pos hhead]
    rw [takeWhile_append_all _ _ _ (secTail_not_heading c.1 c.2),
      dropWhile_append_all _ _ _ (secTail_not_heading c.1 c.2)]
    rw [(mdBody_stops rest (i + 1)).1, (mdBody_stops rest (i + 1)).2]
    rw [List.append_nil, ih (i + 1)]
    rfl

theorem mdLastMarkedOr_secTail_front (d f b : Str) :
    mdLastMarkedOr d (str "**Front:**") 10 (mdSecTail f b) =
      trimStr (' ' :: f) := by
  rw [mdSecTail]
  rw [mdLastMarkedOr_cons_nomatch _ _ _ _ _ (by rfl)]
  rw [mdLastMarkedOr_cons_match _ _ _ _ _ (by rfl)]
  rw [mdLastMarkedOr_cons_nomatch _ _ _ _ _ (by rfl)]
  rw [mdLastMarkedOr_cons_nomatch _ _ _ _ _ (by rfl)]
  rw [mdLastMarkedOr_cons_nomatch _ _ _ _ _ (by rfl)]
  rw [mdLastMarkedOr_cons_nomatch _ _ _ _ _ (by rfl)]
  rw [mdLastMarkedOr_cons_nomatch _ _ _ _ _ (by rfl)]
  rfl

theorem mdLastMarkedOr_secTail_back (d f b : Str) :
    mdLastMarkedOr d (str "**Back:**") 9 (mdSecTail f b) =
      trimStr (' ' :: b) := by
  rw [mdSecTail]
  rw [mdLastMarkedOr_cons_nomatch _ _ _ _ _ (by rfl)]
  rw [mdLastMarkedOr_cons_nomatch _ _ _ _ _ (by rfl)]
  rw [mdLastMarkedOr_cons_nomatch _ _ _ _ _ (by rfl)]
  rw [mdLastMarkedOr_cons_match _ _ _ _ _ (by rfl)]
  rw [mdLastMarkedOr_cons_nomatch _ _ _ _ _ (by rfl)]
  rw [mdLastMarkedOr_cons_nomatch _ _ _ _ _ (by rfl)]
  rw [mdLastMarkedOr_cons_nomatch _ _ _ _ _ (by rfl)]
  rfl

theorem mdSecUpd_secTail (f b : Str)
    (hf : cleanLine f = true) (hb : cleanLine b = true) :
    mdSecUpd ([], []) (mdSecTail f b) = (f, b) := by
  rw [mdSecUpd, mdLastMarkedOr_secTail_front, mdLastMarkedOr_secTail_back]
  rw [trimStr_cons_space, trimStr_cons_space]
  rw [trimStr_clean f (cleanLine_head f hf) (cleanLine_last f hf)]
  rw [trimStr_clean b (cleanLine_head b hb) (cleanLine_last b hb)]

/-- **C6 (counterexample)**: the Markdown codec does not return front texts
byte-identical: a front of `" X"` (leading space) round-trips to `"X"`,
because the decode trims each field — so `decode(encode(D)) = D` on titles
and card texts fails as stated. -/
theorem roundtrip_markdown_trim_cex :
    (mdParse (mdEncode (str "T") none [(str " X", str "B")])).2 =
      [(str "X", str "B")] ∧
    ¬ ([(str "X", str "B")] = [(str " X", str "B")]) := by
  exact ⟨rfl, by decide⟩

/-- **C6 (amended)**: for the Markdown codec, decoding the bytes produced by
encode yields the deck back — identical title and identical front/back texts
in identical order — provided the title and each card text is a single line
with no leading or trailing whitespace (the decode is line-oriented and
trims each field) and the deck description is empty (Markdown also drops the
description, beyond the documented progress/media drops).  The JSON and Anki
byte codecs are the external serde collaborator and are not in scope of this
repository's code. -/
theorem markdown_roundtrip (name : Str) (cards : List (Str × Str))
    (hname : cleanLine name = true)
    (hcards : ∀ p ∈ cards, cleanLine p.1 = true ∧ cleanLine p.2 = true) :
    mdParse (mdEncode name none cards) = (name, cards) := by
  rw [mdEncode_eq_joinNL, mdParse,
    splitLines_joinNL _ (mdEncodeLines_facts name cards hname hcards)]
  have ht : (mdParseLines (mdEncodeLines name cards)).1 = name := by
    have h1 : (mdParseLines (mdEncodeLines name cards)).1 =
        ((mdEncodeLines name cards).foldl mdStep
          ⟨str "Imported from Markdown", none, []⟩).title := rfl
    rw [h1, mdFold_title, mdEncodeLines]
    rw [mdLastMarkedOr_cons_match _ _ _ _ _
      (isPrefixOf_append_self (str "# ") name)]
    rw [mdLastMarkedOr_cons_nomatch _ _ _ _ _ (by rfl)]
    rw [mdLastMarkedOr_cons_nomatch _ _ _ _ _ (by rfl)]
    rw [mdLastMarkedOr_nomatch_all _ _ _ _ (body_no_h1 cards 0)]
    have hdrop : (str "# " ++ name).drop 2 = name := rfl
    rw [hdrop]
    exact trimStr_clean name (cleanLine_head name hname)
      (cleanLine_last name hname)
  have hc : (mdParseLines (mdEncodeLines name cards)).2 = cards := by
    have h2 : (mdParseLines (mdEncodeLines name cards)).2 =
        mdCollect ((mdEncodeLines name cards).foldl mdStep
          ⟨str "Imported from Markdown", none, []⟩) := rfl
    rw [h2, mdFold_none]
    rw [List.nil_append, mdSpecCards]
    have hsec : mdSections (mdEncodeLines name cards) =
        cards.map (fun c => mdSecTail c.1 c.2) := by
      rw [mdEncodeLines]
      have e1 : mdIsHeading (str "# " ++ name) = false := rfl
      have e2 : mdIsHeading (str "---") = false := rfl
      have e3 : mdIsHeading ([] : Str) = false := rfl
      rw [mdSections, if_neg (by rw [e1]; exact Bool.false_ne_true)]
      rw [mdSections, if_neg (by rw [e2]; exact Bool.false_ne_true)]
      rw [mdSections, if_neg (by rw [e3]; exact Bool.false_ne_true)]
      exact mdSections_body cards 0
    rw [hsec, List.map_map]
    have hpt : ∀ p ∈ cards,
        (mdSecUpd ([], []) ∘ fun c => mdSecTail c.1 c.2) p = id p := by
      intro p hp
      obtain ⟨hc1, hc2⟩ := hcards p hp
      simp only [Function.comp_apply, id]
      rw [mdSecUpd_secTail p.1 p.2 hc1 hc2]
    rw [List.map_congr_left hpt, List.map_id]
  exact Prod.ext_iff.mpr ⟨ht, hc⟩

/-- Witness for C6 (amended) at a concrete clean deck. -/
theorem markdown_roundtrip_witness :
    mdParse (mdEncode (str "T") none [(str "F", str "B")]) =
      (str "T", [(str "F", str "B")]) := by
  exact markdown_roundtrip (str "T") [(str "F", str "B")] (by rfl)
    (by
      intro p hp
      rw [List.mem_singleton] at hp
      subst hp
      exact ⟨rfl, rfl⟩)

end DeckOracle
